import Mathlib

/-!
Verification of core behaviours of the RenderV2 Vulkan rendering engine.

This file gives a shallow embedding, in Lean 4, of the parts of the C++
source that the verified claims are about:

* the descriptor-set writer (`src/Render/VkCore/private/Descriptor.cpp`,
  class `DescriptorSetWriter`),
* the descriptor-set layout cache (`DescriptorSetLayoutCache` in the same
  file),
* the multi-stage shader-reflection merger
  (`ResourceManager::mergeReflectionResults` in
  `src/Render/Asset/ResourceManager/private/ResourceManagerUtils.cpp`),
* the transfer engine (`TransferManager` — `uploadToBuffer`,
  `acquireStagingBuffer`, `writeToUniformBuffer`),
* the resource allocator (`VkResourceAllocator::createBuffer`),
* the resource cache defaults (`ResourceManager` constructor,
  `unloadMesh`/`unloadTexture`, `ModelLoader::createCube`,
  `TextureLoader::createSolidColor`),
* the material alpha-mode parser (`MaterialManager::parseAlphaMode`).

Machine integers (`uint32_t`, `vk::DeviceSize`) are modelled as `Nat`:
none of the verified code paths can overflow them, and all subtractions
happen only after the code has checked that the subtrahend is smaller
(matching the unsigned C++ semantics).  C++ exceptions are modelled with
`Except`; when the surrounding object's state matters at a throw site the
function returns the (unmodified) state next to the `Except` value.
External collaborators (the Vulkan device, VMA, SPIRV-Reflect, the file
system) are outside the repository; calls into them are abstracted as
always succeeding, and only the data the repository's own code computes
is modelled.
-/

namespace RenderV2

/-- Error kinds surfaced by the embedded code.  They tag the distinct
`throw` sites of the C++ (`std::runtime_error` for not-initialized /
invalid-argument conditions, `std::out_of_range` for range checks). -/
inductive Err where
  | notInitialized
  | invalidArgument
  | outOfRange
  | notFound
  | incompatibleSchema
  | descriptorCountMismatch
  deriving DecidableEq, Repr

/-- First-match association-list lookup (the behaviour of
`std::unordered_map::find` on the maps we model, which never hold
duplicate keys). -/
def assocFind {κ ν : Type} [DecidableEq κ] : List (κ × ν) → κ → Option ν
  | [], _ => none
  | (k, v) :: rest, key => if k = key then some v else assocFind rest key

/-- Remove every entry with the given key (`std::unordered_map::erase`). -/
def assocErase {κ ν : Type} [DecidableEq κ] : List (κ × ν) → κ → List (κ × ν)
  | [], _ => []
  | (k, v) :: rest, key =>
      if k = key then assocErase rest key else (k, v) :: assocErase rest key

-- =====================================================================
-- MaterialManager::parseAlphaMode  (src/unnamed/part_003, lines 166-181)
-- =====================================================================

/-- `AlphaMode` of `PBRMaterial` (`Material.hpp`). -/
inductive AlphaMode where
  | Opaque
  | Mask
  | Blend
  deriving DecidableEq, Repr

/-- Embeds `MaterialManager::parseAlphaMode`.  The C++ compares the input
string against the six exact literals below and falls back to `Opaque`. -/
def parseAlphaMode (modeStr : String) : AlphaMode :=
  if modeStr = "Opaque" ∨ modeStr = "opaque" then AlphaMode.Opaque
  else if modeStr = "Mask" ∨ modeStr = "mask" then AlphaMode.Mask
  else if modeStr = "Blend" ∨ modeStr = "blend" then AlphaMode.Blend
  else AlphaMode.Opaque

-- =====================================================================
-- VkResourceAllocator::createBuffer  (src/unnamed/part_006, lines 316-347)
-- =====================================================================

/-- State of `VkResourceAllocator` relevant to `createBuffer`: whether
`m_allocator` has been created by `initialize`. -/
structure VkResourceAllocatorState where
  initialized : Bool
  deriving DecidableEq, Repr

/-- `BufferDesc` (`VkResource.hpp`): the fields `createBuffer` reads.
Usage and memory flags are opaque numbers; only `size` and `debugName`
flow into the returned handle. -/
structure BufferDesc where
  size : Nat
  usage : Nat
  memory : Nat
  debugName : String
  deriving DecidableEq, Repr

/-- The data a `ManagedBuffer` records about itself.  The device handles
are external; `valid` models `operator bool` (a null handle is
invalid), and `contents` models the bytes of the backing allocation,
used by the host-visible write path. -/
structure ManagedBuffer where
  size : Nat
  debugName : String
  valid : Bool
  contents : List Nat
  deriving DecidableEq, Repr

/-- Embeds `VkResourceAllocator::createBuffer`.  The C++ throws when
`m_allocator` is null and otherwise forwards the request to
`vmaCreateBuffer` (external; abstracted as succeeding) — there is no
check on `desc.size` — and wraps the result in a `ManagedBuffer`
carrying `desc.size`. -/
def createBuffer (st : VkResourceAllocatorState) (desc : BufferDesc) :
    Except Err ManagedBuffer :=
  if st.initialized = false then Except.error Err.notInitialized
  else
    Except.ok
      { size := desc.size, debugName := desc.debugName,
        valid := true, contents := List.replicate desc.size 0 }

-- =====================================================================
-- Resource cache defaults  (ResourceManagerUtils.cpp)
--   ModelLoader::createCube          (lines 317-446)
--   TextureLoader::createSolidColor  (lines 556-579)
--   ResourceManager::ResourceManager (lines 764-773)
--   ResourceManager::unloadMesh      (lines 1169-1174)
--   ResourceManager::unloadTexture   (lines 1176-1181)
-- =====================================================================

/-- `Vertex` (`SceneTypes.hpp`): position/normal/texCoord/color.  The
`float` components are modelled as rationals (all values the default
cube produces are exact in binary floating point). -/
structure Vertex where
  position : ℚ × ℚ × ℚ
  normal : ℚ × ℚ × ℚ
  texCoord : ℚ × ℚ
  color : ℚ × ℚ × ℚ × ℚ
  deriving DecidableEq, Repr

/-- `MeshData`: debug name plus vertex and index sequences. -/
structure MeshData where
  debugname : String
  vertices : List Vertex
  indices : List Nat
  deriving DecidableEq, Repr

/-- The 24 per-face corner positions of `ModelLoader::createCube`,
copied from the source (front, back, right, left, top, bottom). -/
def cubePositions (h : ℚ) : List (ℚ × ℚ × ℚ) :=
  [(-h, -h, h), (h, -h, h), (h, h, h), (-h, h, h),
   (h, -h, -h), (-h, -h, -h), (-h, h, -h), (h, h, -h),
   (h, -h, h), (h, -h, -h), (h, h, -h), (h, h, h),
   (-h, -h, -h), (-h, -h, h), (-h, h, h), (-h, h, -h),
   (-h, h, h), (h, h, h), (h, h, -h), (-h, h, -h),
   (-h, -h, -h), (h, -h, -h), (h, -h, h), (-h, -h, h)]

/-- The 24 per-face normals of `ModelLoader::createCube`. -/
def cubeNormals : List (ℚ × ℚ × ℚ) :=
  [(0, 0, 1), (0, 0, 1), (0, 0, 1), (0, 0, 1),
   (0, 0, -1), (0, 0, -1), (0, 0, -1), (0, 0, -1),
   (1, 0, 0), (1, 0, 0), (1, 0, 0), (1, 0, 0),
   (-1, 0, 0), (-1, 0, 0), (-1, 0, 0), (-1, 0, 0),
   (0, 1, 0), (0, 1, 0), (0, 1, 0), (0, 1, 0),
   (0, -1, 0), (0, -1, 0), (0, -1, 0), (0, -1, 0)]

/-- The 24 texture coordinates of `ModelLoader::createCube`
(`(0,0),(1,0),(1,1),(0,1)` per face). -/
def cubeTexCoords : List (ℚ × ℚ) :=
  [(0, 0), (1, 0), (1, 1), (0, 1),
   (0, 0), (1, 0), (1, 1), (0, 1),
   (0, 0), (1, 0), (1, 1), (0, 1),
   (0, 0), (1, 0), (1, 1), (0, 1),
   (0, 0), (1, 0), (1, 1), (0, 1),
   (0, 0), (1, 0), (1, 1), (0, 1)]

/-- Embeds `ModelLoader::createCube(size, color)`: half-size corner
positions, per-face normals and UVs zipped into 24 vertices, and the
fixed 36-entry index list (two triangles per face). -/
def createCube (size : ℚ) (color : ℚ × ℚ × ℚ × ℚ) : MeshData :=
  let h := size * (1 / 2)
  let positions := cubePositions h
  let vertices := (List.range positions.length).map (fun i =>
    { position := positions.getD i (0, 0, 0)
      normal := cubeNormals.getD i (0, 0, 0)
      texCoord := cubeTexCoords.getD i (0, 0)
      color := color : Vertex })
  { debugname := "Cube"
    vertices := vertices
    indices := [0, 1, 2, 2, 3, 0,
                4, 5, 6, 6, 7, 4,
                8, 9, 10, 10, 11, 8,
                12, 13, 14, 14, 15, 12,
                16, 17, 18, 18, 19, 16,
                20, 21, 22, 22, 23, 20] }

/-- `TextureData`: the fields the cache and the default textures use.
`pixels` is the flattened byte buffer. -/
structure TextureData where
  width : Nat
  height : Nat
  channels : Nat
  dataSize : Nat
  pixels : List Nat
  deriving DecidableEq, Repr

/-- Embeds `TextureLoader::createSolidColor(width, height, color)`:
four channels, `width*height` RGBA pixels all equal to `color`. -/
def createSolidColor (width height : Nat) (color : Nat × Nat × Nat × Nat) :
    TextureData :=
  { width := width
    height := height
    channels := 4
    dataSize := width * height * 4
    pixels := (List.replicate (width * height)
      [color.1, color.2.1, color.2.2.1, color.2.2.2]).flatten }

/-- `ResourceManager::getDefaultCubeMesh` with its default arguments
(`size = 1.0f`, `color = {1,1,1,1}`). -/
def getDefaultCubeMesh : List MeshData := [createCube 1 (1, 1, 1, 1)]

/-- `ResourceManager::getDefaultWhiteTexture` with its default arguments
(`width = height = 4`, `color = {255,255,255,255}`). -/
def getDefaultWhiteTexture : TextureData :=
  createSolidColor 4 4 (255, 255, 255, 255)

/-- The parts of `ResourceManager`'s state that the default-resource and
unload claims touch: the `loaded` maps and the keys of the `loading`
maps (the futures held in `loading` are opaque here). -/
structure ResourceManagerState where
  loadedMeshes : List (String × List MeshData)
  loadingMeshes : List String
  loadedTextures : List (String × TextureData)
  loadingTextures : List String
  deriving DecidableEq, Repr

/-- Embeds the `ResourceManager` constructor: it primes the mesh cache
with `"default_cube"` and the texture cache with `"default_white"`
(both inserted with `try_emplace` into empty maps). -/
def mkResourceManager : ResourceManagerState :=
  { loadedMeshes := [("default_cube", getDefaultCubeMesh)]
    loadingMeshes := []
    loadedTextures := [("default_white", getDefaultWhiteTexture)]
    loadingTextures := [] }

/-- Embeds `ResourceManager::getMesh`. -/
def getMesh (s : ResourceManagerState) (name : String) :
    Option (List MeshData) :=
  assocFind s.loadedMeshes name

/-- Embeds `ResourceManager::getTexture`. -/
def getTexture (s : ResourceManagerState) (name : String) :
    Option TextureData :=
  assocFind s.loadedTextures name

/-- Embeds `ResourceManager::unloadMesh`: erase from `loadingMeshes`,
then erase from `loadedMeshes`, returning whether a loaded entry was
removed.  There is no special-casing of the default resources. -/
def unloadMesh (s : ResourceManagerState) (name : String) :
    ResourceManagerState × Bool :=
  let removed := (assocFind s.loadedMeshes name).isSome
  ({ s with loadingMeshes := s.loadingMeshes.filter (· ≠ name)
            loadedMeshes := assocErase s.loadedMeshes name }, removed)

/-- Embeds `ResourceManager::unloadTexture` (same shape as
`unloadMesh`). -/
def unloadTexture (s : ResourceManagerState) (name : String) :
    ResourceManagerState × Bool :=
  let removed := (assocFind s.loadedTextures name).isSome
  ({ s with loadingTextures := s.loadingTextures.filter (· ≠ name)
            loadedTextures := assocErase s.loadedTextures name }, removed)

-- =====================================================================
-- Descriptor subsystem data model  (Descriptor.hpp)
-- =====================================================================

/-- `vk::DescriptorImageInfo`: sampler, image view and layout handles,
opaque numbers here. -/
structure DescriptorImageInfo where
  sampler : Nat
  imageView : Nat
  imageLayout : Nat
  deriving DecidableEq, Repr

/-- `vk::DescriptorBufferInfo`: buffer handle, offset and range. -/
structure DescriptorBufferInfo where
  buffer : Nat
  offset : Nat
  range : Nat
  deriving DecidableEq, Repr

/-- `DescriptorBindingInfo` (`Descriptor.hpp`, lines 26-33).
`descriptorType` and `stageFlags` are opaque numbers (`stageFlags` is a
bitmask combined with bitwise or). -/
structure DescriptorBindingInfo where
  name : String
  binding : Nat
  descriptorType : Nat
  descriptorCount : Nat
  stageFlags : Nat
  deriving DecidableEq, Repr

/-- `DescriptorSetSchema`: name, set index and binding list (the layout
handle is external). -/
structure DescriptorSetSchema where
  name : String
  setIndex : Nat
  bindings : List DescriptorBindingInfo
  deriving DecidableEq, Repr

/-- `DescriptorSetSchema::findBinding`: first binding with the given
semantic name. -/
def DescriptorSetSchema.findBinding (s : DescriptorSetSchema)
    (bindingName : String) : Option DescriptorBindingInfo :=
  s.bindings.find? (fun b => b.name = bindingName)

-- =====================================================================
-- DescriptorSetWriter  (Descriptor.cpp, lines 349-603)
-- =====================================================================

/-- `DescriptorSetWriter::BufferWrite`: one queued buffer binding. -/
structure BufferWrite where
  binding : Nat
  type : Nat
  maxCount : Nat
  infos : List DescriptorBufferInfo
  deriving DecidableEq, Repr

/-- `DescriptorSetWriter::ImageWrite`: one queued image binding. -/
structure ImageWrite where
  binding : Nat
  type : Nat
  maxCount : Nat
  infos : List DescriptorImageInfo
  deriving DecidableEq, Repr

/-- The writer's state: bound schema plus the queued writes (the device
and target set handles are external). -/
structure DescriptorSetWriter where
  schema : DescriptorSetSchema
  bufferWrites : List BufferWrite
  imageWrites : List ImageWrite
  deriving DecidableEq, Repr

/-- `DescriptorSetWriter::begin`: a fresh writer with no queued
writes. -/
def DescriptorSetWriter.begin (schema : DescriptorSetSchema) :
    DescriptorSetWriter :=
  { schema := schema, bufferWrites := [], imageWrites := [] }

/-- The tail-keeping truncation of `writeBuffers`/`writeImages`: when
more than `maxCount` entries are supplied, the front excess is erased
(`infos.erase(begin, end - maxCount)`), keeping the last `maxCount`. -/
def truncKeepLast {α : Type} (maxCount : Nat) (xs : List α) : List α :=
  if xs.length > maxCount then xs.drop (xs.length - maxCount) else xs

/-- `DescriptorSetWriter::findOrCreateBufferWrite` combined with the
info assignment of `writeBuffer(s)`: replace the infos of the existing
entry for `binding` (erroring on a type/maxCount mismatch, which the
C++ treats as schema misuse) or append a new entry. -/
def setBufferWriteInfos :
    List BufferWrite → Nat → Nat → Nat → List DescriptorBufferInfo →
      Except Err (List BufferWrite)
  | [], binding, ty, maxCount, infos =>
      Except.ok [{ binding := binding, type := ty, maxCount := maxCount, infos := infos }]
  | bw :: rest, binding, ty, maxCount, infos =>
      if bw.binding = binding then
        if bw.type = ty ∧ bw.maxCount = maxCount then
          Except.ok ({ bw with infos := infos } :: rest)
        else Except.error Err.invalidArgument
      else (setBufferWriteInfos rest binding ty maxCount infos).map (bw :: ·)

/-- Image-side counterpart of `setBufferWriteInfos`
(`findOrCreateImageWrite` plus the info assignment). -/
def setImageWriteInfos :
    List ImageWrite → Nat → Nat → Nat → List DescriptorImageInfo →
      Except Err (List ImageWrite)
  | [], binding, ty, maxCount, infos =>
      Except.ok [{ binding := binding, type := ty, maxCount := maxCount, infos := infos }]
  | iw :: rest, binding, ty, maxCount, infos =>
      if iw.binding = binding then
        if iw.type = ty ∧ iw.maxCount = maxCount then
          Except.ok ({ iw with infos := infos } :: rest)
        else Except.error Err.invalidArgument
      else (setImageWriteInfos rest binding ty maxCount infos).map (iw :: ·)

/-- `DescriptorSetWriter::writeBuffers(name, infos)`: look up the
binding by name (missing name is a hard error), then store the infos
truncated to the last `descriptorCount` entries. -/
def DescriptorSetWriter.writeBuffers (w : DescriptorSetWriter)
    (bindingName : String) (bufferInfos : List DescriptorBufferInfo) :
    Except Err DescriptorSetWriter :=
  match w.schema.findBinding bindingName with
  | none => Except.error Err.notFound
  | some bi =>
      (setBufferWriteInfos w.bufferWrites bi.binding bi.descriptorType
          bi.descriptorCount (truncKeepLast bi.descriptorCount bufferInfos)).map
        (fun bws => { w with bufferWrites := bws })

/-- `DescriptorSetWriter::writeImages(name, infos)`. -/
def DescriptorSetWriter.writeImages (w : DescriptorSetWriter)
    (bindingName : String) (imageInfos : List DescriptorImageInfo) :
    Except Err DescriptorSetWriter :=
  match w.schema.findBinding bindingName with
  | none => Except.error Err.notFound
  | some bi =>
      (setImageWriteInfos w.imageWrites bi.binding bi.descriptorType
          bi.descriptorCount (truncKeepLast bi.descriptorCount imageInfos)).map
        (fun iws => { w with imageWrites := iws })

/-- `DescriptorSetWriter::writeBuffer(name, info)`: single-value write,
replacing any prior value (no truncation on this path). -/
def DescriptorSetWriter.writeBuffer (w : DescriptorSetWriter)
    (bindingName : String) (bufferInfo : DescriptorBufferInfo) :
    Except Err DescriptorSetWriter :=
  match w.schema.findBinding bindingName with
  | none => Except.error Err.notFound
  | some bi =>
      (setBufferWriteInfos w.bufferWrites bi.binding bi.descriptorType
          bi.descriptorCount [bufferInfo]).map
        (fun bws => { w with bufferWrites := bws })

/-- `DescriptorSetWriter::writeImage(name, info)`. -/
def DescriptorSetWriter.writeImage (w : DescriptorSetWriter)
    (bindingName : String) (imageInfo : DescriptorImageInfo) :
    Except Err DescriptorSetWriter :=
  match w.schema.findBinding bindingName with
  | none => Except.error Err.notFound
  | some bi =>
      (setImageWriteInfos w.imageWrites bi.binding bi.descriptorType
          bi.descriptorCount [imageInfo]).map
        (fun iws => { w with imageWrites := iws })

/-- One `vk::WriteDescriptorSet` produced by `update`. -/
inductive WriteOp where
  | buffer (dstBinding dstArrayElement descriptorType descriptorCount : Nat)
      (infos : List DescriptorBufferInfo)
  | image (dstBinding dstArrayElement descriptorType descriptorCount : Nat)
      (infos : List DescriptorImageInfo)
  deriving DecidableEq, Repr

/-- The per-entry body of `update`'s buffer loop: empty entries are
skipped; otherwise `count = min(maxCount, infos.size)` and the pointer
is advanced to the last `count` infos, with `dstArrayElement = 0`. -/
def commitBufferWrite (bw : BufferWrite) : Option WriteOp :=
  if bw.infos = [] then none
  else
    let count := min bw.maxCount bw.infos.length
    some (WriteOp.buffer bw.binding 0 bw.type count
      (bw.infos.drop (bw.infos.length - count)))

/-- The per-entry body of `update`'s image loop. -/
def commitImageWrite (iw : ImageWrite) : Option WriteOp :=
  if iw.infos = [] then none
  else
    let count := min iw.maxCount iw.infos.length
    some (WriteOp.image iw.binding 0 iw.type count
      (iw.infos.drop (iw.infos.length - count)))

/-- `DescriptorSetWriter::update`: flush all queued writes in one call
(buffer writes first, then image writes, as in the source) and clear
the writer. -/
def DescriptorSetWriter.update (w : DescriptorSetWriter) :
    List WriteOp × DescriptorSetWriter :=
  (w.bufferWrites.filterMap commitBufferWrite ++
     w.imageWrites.filterMap commitImageWrite,
   { w with bufferWrites := [], imageWrites := [] })

/-- The schema used by the C1 witness: one binding `"uTex"` with
`descriptorCount = 4`. -/
def uTexBinding : DescriptorBindingInfo :=
  ⟨"uTex", 2, 1, 4, 16⟩

/-- Witness schema holding `uTexBinding` as its only binding. -/
def uTexSchema : DescriptorSetSchema :=
  ⟨"pbr", 0, [uTexBinding]⟩

/-- Six concrete image infos (distinct image views 10..15) fed to the
writer in the C1 witness. -/
def sixImageInfos : List DescriptorImageInfo :=
  [⟨0, 10, 0⟩, ⟨0, 11, 0⟩, ⟨0, 12, 0⟩, ⟨0, 13, 0⟩, ⟨0, 14, 0⟩, ⟨0, 15, 0⟩]

-- =====================================================================
-- DescriptorSetLayoutCache  (Descriptor.cpp, lines 41-217)
-- =====================================================================

/-- The structural fields of one binding — exactly what `LayoutKeyEqual`
compares and `LayoutKeyHash` hashes (the `name` does not participate in
identity). -/
structure LayoutBindingKey where
  binding : Nat
  descriptorType : Nat
  descriptorCount : Nat
  stageFlags : Nat
  deriving DecidableEq, Repr

/-- Project a binding onto its structural fields. -/
def structTuple (b : DescriptorBindingInfo) : LayoutBindingKey :=
  ⟨b.binding, b.descriptorType, b.descriptorCount, b.stageFlags⟩

/-- The structural projection of a binding list; two lists compare
equal under `LayoutKeyEqual` iff their projections are equal. -/
def structTuples (bs : List DescriptorBindingInfo) : List LayoutBindingKey :=
  bs.map structTuple

/-- Stable insertion by ascending binding index; models one step of
`std::sort` with comparator `a.binding < b.binding` (the source orders
only by this strict comparison; for equal binding indices we fix the
stable order, which `LayoutKeyEqual` then compares element-wise). -/
def insertByBinding (b : DescriptorBindingInfo) :
    List DescriptorBindingInfo → List DescriptorBindingInfo
  | [] => [b]
  | x :: xs =>
      if b.binding < x.binding then b :: x :: xs else x :: insertByBinding b xs

/-- The canonicalising sort of `registerSetLayout` (and of
`mergeReflectionResults`): sort by binding index ascending. -/
def sortByBinding (l : List DescriptorBindingInfo) :
    List DescriptorBindingInfo :=
  l.foldr insertByBinding []

/-- Insert-or-overwrite for the name map
(`m_schemasByName[nameKey] = schema`). -/
def assocUpsert {κ ν : Type} [DecidableEq κ] :
    List (κ × ν) → κ → ν → List (κ × ν)
  | [], key, v => [(key, v)]
  | (k, w) :: rest, key, v =>
      if k = key then (key, v) :: rest else (k, w) :: assocUpsert rest key v

/-- `DescriptorSetLayoutCache::makeNameKey` concatenates
`schemaName + "#" + std::to_string(setIndex)`; the decimal suffix never
contains another `#`, so the last `#` splits the key uniquely and the
pair `(schemaName, setIndex)` is an equivalent model of the string
key. -/
def makeNameKey (schemaName : String) (setIndex : Nat) : String × Nat :=
  (schemaName, setIndex)

/-- The cache state: the structural map `m_schemasByKey` (which holds
the schemas strongly, so the weak name references always resolve while
an entry exists), the name map `m_schemasByName`, and the schema store
itself, with schema objects identified by allocation order.  `schemas`
maps a schema id to its immutable payload. -/
structure LayoutCacheState where
  byKey : List ((Nat × List LayoutBindingKey) × Nat)
  byName : List ((String × Nat) × Nat)
  schemas : List (Nat × DescriptorSetSchema)
  nextId : Nat
  deriving DecidableEq, Repr

/-- A freshly constructed cache. -/
def emptyLayoutCache : LayoutCacheState := ⟨[], [], [], 0⟩

/-- Steps 2-5 of `registerSetLayout` (lines 134-179): look the
canonical bindings up by structural key; on a hit, alias the name to
the existing schema; on a miss, create the layout (external) and a new
schema, and store it in both maps. -/
def registerByStructure (s : LayoutCacheState) (schemaName : String)
    (setIndex : Nat) (canonical : List DescriptorBindingInfo) :
    Except Err (LayoutCacheState × Nat) :=
  match assocFind s.byKey (setIndex, structTuples canonical) with
  | some id =>
      Except.ok
        ({ s with byName := assocUpsert s.byName (makeNameKey schemaName setIndex) id },
         id)
  | none =>
      let schema : DescriptorSetSchema := ⟨schemaName, setIndex, canonical⟩
      Except.ok
        (⟨((setIndex, structTuples canonical), s.nextId) :: s.byKey,
          assocUpsert s.byName (makeNameKey schemaName setIndex) s.nextId,
          (s.nextId, schema) :: s.schemas,
          s.nextId + 1⟩,
         s.nextId)

/-- Embeds `DescriptorSetLayoutCache::registerSetLayout` (lines
93-180): canonicalise the bindings by sorting on the binding index;
if the `(schemaName, setIndex)` name key already resolves to a live
schema, compare structures (ignoring names) and either return the
existing schema unchanged or throw; otherwise fall through to the
structural lookup/creation. -/
def registerSetLayout (s : LayoutCacheState) (schemaName : String)
    (setIndex : Nat) (bindings : List DescriptorBindingInfo) :
    Except Err (LayoutCacheState × Nat) :=
  let canonical := sortByBinding bindings
  match assocFind s.byName (makeNameKey schemaName setIndex) with
  | some id =>
      match assocFind s.schemas id with
      | some existing =>
          if structTuples existing.bindings = structTuples canonical then
            Except.ok (s, id)
          else Except.error Err.incompatibleSchema
      | none => registerByStructure s schemaName setIndex canonical
  | none => registerByStructure s schemaName setIndex canonical

/-- One `registerSetLayout` call's arguments, for reasoning about call
sequences. -/
structure LayoutRegisterRequest where
  schemaName : String
  setIndex : Nat
  bindings : List DescriptorBindingInfo
  deriving Repr

/-- Perform one registration; a failed call (the C++ throw) leaves the
cache unchanged. -/
def applyRegisterRequest (s : LayoutCacheState) (r : LayoutRegisterRequest) :
    LayoutCacheState :=
  match registerSetLayout s r.schemaName r.setIndex r.bindings with
  | Except.ok p => p.1
  | Except.error _ => s

/-- Perform a sequence of registrations. -/
def runRegisterRequests (s : LayoutCacheState)
    (rs : List LayoutRegisterRequest) : LayoutCacheState :=
  rs.foldl applyRegisterRequest s

/-- The cache's internal consistency: every structural entry resolves
to a stored schema whose structural projection is the entry's key;
every name entry resolves, at its set index, to a structural entry;
all stored ids are below the allocation counter. -/
def LayoutCacheInv (s : LayoutCacheState) : Prop :=
  (∀ i ts id, assocFind s.byKey (i, ts) = some id →
    ∃ sch, assocFind s.schemas id = some sch ∧ ts = structTuples sch.bindings) ∧
  (∀ n i id, assocFind s.byName (makeNameKey n i) = some id →
    ∃ ts, assocFind s.byKey (i, ts) = some id) ∧
  (∀ k id, assocFind s.byKey k = some id → id < s.nextId)

-- =====================================================================
-- ResourceManager::mergeReflectionResults
--   (ResourceManagerUtils.cpp, lines 1238-1302)
-- and registerDescriptorLayouts (lines 1304-1325),
-- reflectDescriptorSetLayouts (lines 1327-1359)
-- =====================================================================

/-- The merge key of `mergeReflectionResults`:
`(binding, descriptorType)`. -/
def bindingKeyOf (b : DescriptorBindingInfo) : Nat × Nat :=
  (b.binding, b.descriptorType)

/-- The inner loop body of `mergeReflectionResults`: merge one incoming
binding into its set's destination vector.  `find_if` locates the first
entry with the same `(binding, descriptorType)`; no match appends the
binding unchanged; a match with a different `descriptorCount` throws;
otherwise the stage flags are or-combined in place (the existing entry,
and hence the first-seen name and count, is kept). -/
def mergeBinding : List DescriptorBindingInfo → DescriptorBindingInfo →
    Except Err (List DescriptorBindingInfo)
  | [], b => Except.ok [b]
  | x :: xs, b =>
      if bindingKeyOf x = bindingKeyOf b then
        if x.descriptorCount ≠ b.descriptorCount then
          Except.error Err.descriptorCountMismatch
        else
          Except.ok ({ x with stageFlags := x.stageFlags ||| b.stageFlags } :: xs)
      else (mergeBinding xs b).map (x :: ·)

/-- Merge one `(set, binding)` pair into the accumulating set map
(`merged[setIndex]` materialises an empty vector on first use; here a
missing set entry is appended at the end). -/
def mergeStepSet : List (Nat × List DescriptorBindingInfo) → Nat →
    DescriptorBindingInfo →
    Except Err (List (Nat × List DescriptorBindingInfo))
  | [], setIndex, b => (mergeBinding [] b).map (fun v => [(setIndex, v)])
  | (s0, v) :: rest, setIndex, b =>
      if s0 = setIndex then
        (mergeBinding v b).map (fun v2 => (setIndex, v2) :: rest)
      else (mergeStepSet rest setIndex b).map ((s0, v) :: ·)

/-- The triple loop of `mergeReflectionResults` flattened into one
sequence: modules in order, each module's sets in order (the iteration
order of the per-module `unordered_map` is unspecified in C++; it is
fixed here, which does not affect any per-set result or the presence of
an error), each set's bindings in order. -/
def flattenReflection
    (perModuleData : List (List (Nat × List DescriptorBindingInfo))) :
    List (Nat × DescriptorBindingInfo) :=
  perModuleData.flatMap (fun setMap =>
    setMap.flatMap (fun p => p.2.map (fun b => (p.1, b))))

/-- Embeds `ResourceManager::mergeReflectionResults`: fold every
incoming binding into the set map (the first descriptor-count conflict
throws), then sort each set's bindings by binding index ascending. -/
def mergeReflectionResults
    (perModuleData : List (List (Nat × List DescriptorBindingInfo))) :
    Except Err (List (Nat × List DescriptorBindingInfo)) := do
  let merged ← (flattenReflection perModuleData).foldlM
    (fun acc p => mergeStepSet acc p.1 p.2) []
  pure (merged.map (fun p => (p.1, sortByBinding p.2)))

/-- Embeds `ResourceManager::registerDescriptorLayouts`: register every
non-empty set's bindings under the shader prefix (already sorted by the
merger, as the source notes). -/
def registerDescriptorLayouts (cache : LayoutCacheState)
    (finalSets : List (Nat × List DescriptorBindingInfo))
    (shaderPfx : String) : Except Err LayoutCacheState :=
  finalSets.foldlM
    (fun c p =>
      if p.2 = [] then Except.ok c
      else (registerSetLayout c shaderPfx p.1 p.2).map Prod.fst)
    cache

/-- Embeds the tail of `ResourceManager::reflectDescriptorSetLayouts`
after the per-module SPIRV-Reflect calls (external): merge the
per-module reflection data, then register the layouts.  When the merge
throws, no registration happens and the cache is unchanged. -/
def reflectAndRegister (cache : LayoutCacheState)
    (perModuleData : List (List (Nat × List DescriptorBindingInfo)))
    (shaderPfx : String) : Except Err LayoutCacheState := do
  let finalSets ← mergeReflectionResults perModuleData
  registerDescriptorLayouts cache finalSets shaderPfx

-- Reference (specification-side) description of the merge, following
-- the spec's words: bindings are grouped by (binding, descriptorType)
-- key in first-occurrence order; each group keeps its first binding
-- (name and count) with the stage flags of the whole group or-combined;
-- groups must agree on descriptorCount.

/-- First-occurrence deduplication (specification side). -/
def dedupFirst {α : Type} [DecidableEq α] : List α → List α
  | [] => []
  | k :: ks => k :: dedupFirst (ks.filter (fun k2 => decide (k2 ≠ k)))
termination_by l => l.length
decreasing_by
  simp only [List.length_cons]
  exact Nat.lt_succ_of_le (List.length_filter_le _ _)

/-- Specification-side merged entry of one key group: the first binding
with the group's stage flags or-combined. -/
def specMergeEntry (ms : List DescriptorBindingInfo) :
    DescriptorBindingInfo :=
  match ms with
  | [] => ⟨"", 0, 0, 0, 0⟩
  | m :: rest =>
      { m with stageFlags :=
          rest.foldl (fun acc b => acc ||| b.stageFlags) m.stageFlags }

/-- Specification-side merge of one set's binding sequence (before the
final sort): one entry per `(binding, descriptorType)` key, in
first-occurrence order, each the or-combination of its group. -/
def specMergeList (l : List DescriptorBindingInfo) :
    List DescriptorBindingInfo :=
  (dedupFirst (l.map bindingKeyOf)).map
    (fun k => specMergeEntry (l.filter (fun b => decide (bindingKeyOf b = k))))

/-- All bindings of one set drawn from the flattened reflection data,
in order. -/
def entriesFor (flat : List (Nat × DescriptorBindingInfo)) (setIndex : Nat) :
    List DescriptorBindingInfo :=
  (flat.filter (fun p => decide (p.1 = setIndex))).map Prod.snd

/-- All bindings of a set agree on `descriptorCount` within each
`(binding, descriptorType)` key. -/
def countConsistent (l : List DescriptorBindingInfo) : Prop :=
  ∀ b1 ∈ l, ∀ b2 ∈ l, bindingKeyOf b1 = bindingKeyOf b2 →
    b1.descriptorCount = b2.descriptorCount

/-- Sorted by binding index ascending (non-strict: different descriptor
types may share a binding index). -/
def sortedByBinding (l : List DescriptorBindingInfo) : Prop :=
  l.Pairwise (fun a b => a.binding ≤ b.binding)

/-- The specification-side set map after processing a flattened
sequence: each set index in first-occurrence order, mapped to the
specification-side merge of its bindings. -/
def specSets (flat : List (Nat × DescriptorBindingInfo)) :
    List (Nat × List DescriptorBindingInfo) :=
  (dedupFirst (flat.map Prod.fst)).map
    (fun s => (s, specMergeList (entriesFor flat s)))

-- =====================================================================
-- TransferManager  (src/unnamed/part_007, TransferManager.hpp)
-- =====================================================================

/-- `TransferManagerConfig` (`TransferManager.hpp`, lines 109-115). -/
structure TransferManagerConfig where
  enableStagingBufferPool : Bool
  maxPooledStagingBuffers : Nat
  minStagingBufferSize : Nat
  maxStagingBufferSize : Nat
  deriving DecidableEq, Repr

/-- `StagingBufferInfo` (`TransferManager.hpp`, lines 99-104): the pool
entry's capacity and in-use flag (the owned `ManagedBuffer` handle is
external). -/
structure StagingBufferInfo where
  size : Nat
  inUse : Bool
  deriving DecidableEq, Repr

/-- `TransferQueueType`: which queue a one-shot command list targets. -/
inductive TransferQueueType where
  | transfer
  | graphics
  deriving DecidableEq, Repr

/-- `vk::BufferCopy`: one copy region. -/
structure BufferCopy where
  srcOffset : Nat
  dstOffset : Nat
  size : Nat
  deriving DecidableEq, Repr

/-- A completion token (`TransferToken`): its shared state is identified
by a number here. -/
structure TransferToken where
  id : Nat
  deriving DecidableEq, Repr

/-- `ThreadResources::PendingSubmission`: the recorded regions stand for
the command list's contents; `completed` models "the fence has
signaled", `externallyReferenced` models
`tokenState.use_count() > 1`. -/
structure PendingSubmission where
  regions : List BufferCopy
  queue : TransferQueueType
  stagingBuffersToRelease : List Nat
  completed : Bool
  externallyReferenced : Bool
  deriving DecidableEq, Repr

/-- `TransferManager::ThreadResources` (per-thread): staging pool,
active submissions, and the number of recycled fences in the free
list (the fence handles themselves are external). -/
structure ThreadResources where
  stagingBufferPool : List StagingBufferInfo
  activeSubmissions : List PendingSubmission
  fencePool : Nat
  deriving DecidableEq, Repr

/-- The `TransferManager` state for one thread.  `initialized` models
`m_ctx != nullptr && m_allocator != nullptr` (both set together by
`initialize`); `hasTransferQueue` models
`ctx.getQueueFamilyIndices().transferFamily.has_value()`. -/
structure TransferManagerState where
  initialized : Bool
  hasTransferQueue : Bool
  config : TransferManagerConfig
  resources : ThreadResources
  nextTokenId : Nat
  deriving DecidableEq, Repr

/-- The first-fit scan of `acquireStagingBuffer`'s reuse loop: index of
the first pool entry that is not in use and has capacity at least
`size`. -/
def findFreeStagingIdx : List StagingBufferInfo → Nat → Option Nat
  | [], _ => none
  | info :: rest, size =>
      if info.inUse = false ∧ size ≤ info.size then some 0
      else (findFreeStagingIdx rest size).map (· + 1)

/-- The size of a newly pooled staging buffer
(`acquireStagingBuffer`, lines 353-355): `max(size, minSize)`, and when
`maxStagingBufferSize > 0` additionally
`max(size, min(allocSize, maxSize))` — note the outer `max` keeps the
requested size even above the cap. -/
def stagingAllocSize (cfg : TransferManagerConfig) (size : Nat) : Nat :=
  let allocSize := max size cfg.minStagingBufferSize
  if cfg.maxStagingBufferSize > 0 then
    max size (min allocSize cfg.maxStagingBufferSize)
  else allocSize

/-- The common tail of `acquireStagingBuffer` (lines 366-372): push a
fresh in-use entry of exactly the requested size. -/
def acquireStagingFresh (s : TransferManagerState) (size : Nat) :
    TransferManagerState × Except Err Nat :=
  let pool := s.resources.stagingBufferPool
  ({ s with resources := { s.resources with stagingBufferPool := pool ++ [⟨size, true⟩] } },
   Except.ok pool.length)

/-- Embeds `TransferManager::acquireStagingBuffer` (part_007, lines
329-373).  Throws when the allocator is unset; with pooling enabled,
reuse the first free fitting entry, else (below the cap) append a
pooled buffer of `stagingAllocSize`; with pooling disabled or the pool
full, append a fresh entry of exactly the requested size. -/
def acquireStagingBuffer (s : TransferManagerState) (size : Nat) :
    TransferManagerState × Except Err Nat :=
  if s.initialized = false then (s, Except.error Err.notInitialized)
  else if s.config.enableStagingBufferPool then
    match findFreeStagingIdx s.resources.stagingBufferPool size with
    | some i =>
        let pool := s.resources.stagingBufferPool
        let entry : StagingBufferInfo := ⟨(pool.getD i ⟨0, false⟩).size, true⟩
        ({ s with resources := { s.resources with stagingBufferPool := pool.set i entry } },
         Except.ok i)
    | none =>
        if s.resources.stagingBufferPool.length < s.config.maxPooledStagingBuffers then
          let pool := s.resources.stagingBufferPool
          let entry : StagingBufferInfo := ⟨stagingAllocSize s.config size, true⟩
          ({ s with resources := { s.resources with stagingBufferPool := pool ++ [entry] } },
           Except.ok pool.length)
        else acquireStagingFresh s size
  else acquireStagingFresh s size

/-- `TransferManager::releaseStagingBuffer`: mark the entry not in use
(no-op out of bounds). -/
def releaseStagingAt (pool : List StagingBufferInfo) (index : Nat) :
    List StagingBufferInfo :=
  if index < pool.length then
    pool.set index ⟨(pool.getD index ⟨0, false⟩).size, false⟩
  else pool

/-- Release a submission's recorded staging indices in order. -/
def releaseStagingList (pool : List StagingBufferInfo) :
    List Nat → List StagingBufferInfo
  | [] => pool
  | idx :: rest => releaseStagingList (releaseStagingAt pool idx) rest

/-- The descending cleanup loop of
`TransferManager::cleanupUnusedStagingBuffers` (lines 393-404): walk
indices from the tail; stop when the pool is within the cap; erase
entries that are not in use. -/
def cleanupLoop (maxPooled : Nat) : List StagingBufferInfo → Nat →
    List StagingBufferInfo
  | pool, 0 => pool
  | pool, i + 1 =>
      if pool.length ≤ maxPooled then pool
      else if (pool.getD i ⟨0, false⟩).inUse = false then
        cleanupLoop maxPooled (pool.eraseIdx i) i
      else cleanupLoop maxPooled pool i

/-- Embeds `TransferManager::cleanupUnusedStagingBuffers`: no-op when
pooling is disabled, otherwise shrink from the tail. -/
def cleanupUnusedStagingBuffers (s : TransferManagerState) :
    TransferManagerState :=
  if s.config.enableStagingBufferPool = false then s
  else
    let pool := s.resources.stagingBufferPool
    let pool2 := cleanupLoop s.config.maxPooledStagingBuffers pool pool.length
    { s with resources := { s.resources with stagingBufferPool := pool2 } }

/-- The reaping scan at the start of `endOneTimeCommands` (lines
443-478): drop every submission whose fence has signaled and whose
token state has no external holder, releasing its staging indices and
recycling its fence; keep the rest in order.  Returns the kept
submissions, the updated pool, and the number of recycled fences. -/
def reapSubmissions : List PendingSubmission → List StagingBufferInfo →
    List PendingSubmission × List StagingBufferInfo × Nat
  | [], pool => ([], pool, 0)
  | sub :: rest, pool =>
      if sub.completed = true ∧ sub.externallyReferenced = false then
        let r := reapSubmissions rest (releaseStagingList pool sub.stagingBuffersToRelease)
        (r.1, r.2.1, r.2.2 + 1)
      else
        let r := reapSubmissions rest pool
        (sub :: r.1, r.2.1, r.2.2)

/-- Embeds `TransferManager::endOneTimeCommands` (lines 424-514): reap
finished submissions, pick a fence from the free list (or create one —
external either way), submit to the requested queue (falling back to
the graphics queue when no dedicated transfer queue exists), and
append the new pending submission with a fresh token. -/
def endOneTimeCommands (s : TransferManagerState) (regions : List BufferCopy)
    (queueType : TransferQueueType) (stagingBuffersToRelease : List Nat) :
    TransferManagerState × TransferToken :=
  let r := reapSubmissions s.resources.activeSubmissions
    s.resources.stagingBufferPool
  let fencesAvail := s.resources.fencePool + r.2.2
  let fencesAfter := fencesAvail - 1
  let queue := if queueType = TransferQueueType.transfer ∧ s.hasTransferQueue
    then TransferQueueType.transfer else TransferQueueType.graphics
  let sub : PendingSubmission :=
    ⟨regions, queue, stagingBuffersToRelease, false, true⟩
  ({ s with
      resources := ⟨r.2.1, r.1 ++ [sub], fencesAfter⟩,
      nextTokenId := s.nextTokenId + 1 },
   ⟨s.nextTokenId⟩)

/-- Embeds `TransferManager::uploadToBuffer` (part_007, lines 95-126):
initialization and validity checks, then the two range checks (throwing
`std::out_of_range`), then staging acquisition, host-to-staging memcpy
(external memory), recording of a single-region `copyBuffer` and
submission on the transfer queue, then staging-pool cleanup. -/
def uploadToBuffer (s : TransferManagerState) (dst : ManagedBuffer)
    (size dstOffset : Nat) : TransferManagerState × Except Err TransferToken :=
  if s.initialized = false then (s, Except.error Err.notInitialized)
  else if dst.valid = false then (s, Except.error Err.invalidArgument)
  else if dst.size ≤ dstOffset then (s, Except.error Err.outOfRange)
  else if dst.size - dstOffset < size then (s, Except.error Err.outOfRange)
  else
    match acquireStagingBuffer s size with
    | (s1, Except.error e) => (s1, Except.error e)
    | (s1, Except.ok stagingIndex) =>
        let region : BufferCopy := ⟨0, dstOffset, size⟩
        let r := endOneTimeCommands s1 [region] TransferQueueType.transfer
          [stagingIndex]
        (cleanupUnusedStagingBuffers r.1, Except.ok r.2)

/-- `memcpy(mapped + dstOffset, data, size)` on the backing bytes. -/
def writeBytes (contents : List Nat) (offset : Nat) (data : List Nat) :
    List Nat :=
  contents.take offset ++ data ++ contents.drop (offset + data.length)

/-- Embeds `TransferManager::writeToUniformBuffer` (part_007, lines
206-223): initialization and validity checks, the same two range checks
as the upload paths, then map / memcpy of exactly `size` bytes at
`dstOffset` / unmap.  Returns the buffer's new backing bytes; the
engine state is untouched (no command list, no staging buffer). -/
def writeToUniformBuffer (s : TransferManagerState) (dst : ManagedBuffer)
    (data : List Nat) (size dstOffset : Nat) : Except Err (List Nat) :=
  if s.initialized = false then Except.error Err.notInitialized
  else if dst.valid = false then Except.error Err.invalidArgument
  else if dst.size ≤ dstOffset then Except.error Err.outOfRange
  else if dst.size - dstOffset < size then Except.error Err.outOfRange
  else Except.ok (writeBytes dst.contents dstOffset (data.take size))

/-- Witness reflection data: a vertex stage (flags 1) declaring
`(set 0, binding 0, uniform buffer)` and a fragment stage (flags 16)
declaring the same binding (different name) plus a texture array at
binding 1. -/
def wPm : List (List (Nat × List DescriptorBindingInfo)) :=
  [[(0, [⟨"uCam", 0, 6, 1, 1⟩])],
   [(0, [⟨"uCamFrag", 0, 6, 1, 16⟩, ⟨"uTex", 1, 1, 4, 16⟩])]]

/-- Witness reflection data with a descriptor-count mismatch between
the two stages at `(set 0, binding 1)`. -/
def wPmBad : List (List (Nat × List DescriptorBindingInfo)) :=
  [[(0, [⟨"u", 1, 6, 1, 1⟩])], [(0, [⟨"u", 1, 6, 2, 16⟩])]]

-- =====================================================================
-- Theorems
-- =====================================================================

@[simp] theorem assocFind_nil {κ ν : Type} [DecidableEq κ] (key : κ) :
    assocFind ([] : List (κ × ν)) key = none := rfl

@[simp] theorem assocFind_cons {κ ν : Type} [DecidableEq κ] (k : κ) (v : ν)
    (rest : List (κ × ν)) (key : κ) :
    assocFind ((k, v) :: rest) key =
      if k = key then some v else assocFind rest key := rfl

theorem truncKeepLast_eq_drop {α : Type} (maxCount : Nat) (xs : List α) :
    truncKeepLast maxCount xs = xs.drop (xs.length - min xs.length maxCount) := by
  unfold truncKeepLast
  by_cases h : xs.length > maxCount
  · simp only [h, if_true]
    congr 1
    omega
  · simp only [h, if_false]
    have hmin : xs.length - min xs.length maxCount = 0 := by omega
    rw [hmin, List.drop_zero]

-- =====================================================================
-- Theorems for C7, C8, C9
-- =====================================================================

/-- C8 (counterexample): the claim says the alpha-mode parser matches
`"mask"` case-insensitively, so `"MASK"` should map to `Mask`; the code
compares only against the exact literals `"Mask"`/`"mask"`, so `"MASK"`
falls through to `Opaque`. -/
theorem parseAlphaMode_not_case_insensitive :
    parseAlphaMode "MASK" = AlphaMode.Opaque ∧
      AlphaMode.Opaque ≠ AlphaMode.Mask := by
  constructor
  · rfl
  · intro h
    exact AlphaMode.noConfusion h

/-- C8 (amended): the parser maps the exact strings `"Opaque"`/`"opaque"`,
`"Mask"`/`"mask"`, `"Blend"`/`"blend"` to the corresponding mode, and
every other string — including every other capitalization — yields
`Opaque`. -/
theorem parseAlphaMode_exact_match :
    parseAlphaMode "Opaque" = AlphaMode.Opaque ∧
    parseAlphaMode "opaque" = AlphaMode.Opaque ∧
    parseAlphaMode "Mask" = AlphaMode.Mask ∧
    parseAlphaMode "mask" = AlphaMode.Mask ∧
    parseAlphaMode "Blend" = AlphaMode.Blend ∧
    parseAlphaMode "blend" = AlphaMode.Blend ∧
    ∀ s : String, s ≠ "Mask" → s ≠ "mask" → s ≠ "Blend" → s ≠ "blend" →
      parseAlphaMode s = AlphaMode.Opaque := by
  refine ⟨rfl, rfl, rfl, rfl, rfl, rfl, ?_⟩
  intro s h1 h2 h3 h4
  unfold parseAlphaMode
  by_cases ho : s = "Opaque" ∨ s = "opaque"
  · simp [ho]
  · simp [ho, h1, h2, h3, h4]

/-- C8 (witness): the general fallback clause of
`parseAlphaMode_exact_match` applied at the concrete string "BLEND". -/
theorem parseAlphaMode_exact_match_witness :
    parseAlphaMode "BLEND" = AlphaMode.Opaque :=
  parseAlphaMode_exact_match.2.2.2.2.2.2 "BLEND"
    (by decide) (by decide) (by decide) (by decide)

/-- C9 (counterexample): the claim says `createBuffer` fails whenever the
requested size is 0; the code contains no zero-size check, so with an
initialized allocator a size-0 request produces an owning handle of
recorded size 0 instead of an error. -/
theorem createBuffer_accepts_zero_size :
    createBuffer { initialized := true }
        { size := 0, usage := 0, memory := 0, debugName := "b" } =
      Except.ok
        { size := 0, debugName := "b", valid := true, contents := [] } := by
  rfl

/-- C9 (amended): `createBuffer` fails exactly when the allocator has not
been initialized; for an initialized allocator it returns (with the
underlying VMA allocation abstracted as succeeding) an owning handle
whose recorded size equals the requested size, with no check on the
size. -/
theorem createBuffer_spec (st : VkResourceAllocatorState) (desc : BufferDesc) :
    (st.initialized = false → createBuffer st desc = Except.error Err.notInitialized) ∧
    (st.initialized = true →
      createBuffer st desc =
        Except.ok
          { size := desc.size, debugName := desc.debugName,
            valid := true, contents := List.replicate desc.size 0 }) := by
  constructor
  · intro h
    simp [createBuffer, h]
  · intro h
    simp [createBuffer, h]

/-- C9 (witness): `createBuffer_spec` evaluated at an initialized
allocator and a size-7 request. -/
theorem createBuffer_spec_witness :
    createBuffer { initialized := true }
        { size := 7, usage := 3, memory := 1, debugName := "v" } =
      Except.ok
        { size := 7, debugName := "v", valid := true,
          contents := List.replicate 7 0 } :=
  (createBuffer_spec { initialized := true }
    { size := 7, usage := 3, memory := 1, debugName := "v" }).2 rfl

/-- C7 (counterexample): the claim says `"default_cube"` and
`"default_white"` are never removable; calling `unloadMesh` /
`unloadTexture` on the freshly constructed cache removes them (the
erase is unconditional). -/
theorem default_resources_removable :
    (unloadMesh mkResourceManager "default_cube").2 = true ∧
    getMesh (unloadMesh mkResourceManager "default_cube").1 "default_cube" = none ∧
    (unloadTexture mkResourceManager "default_white").2 = true ∧
    getTexture (unloadTexture mkResourceManager "default_white").1 "default_white" = none := by
  refine ⟨rfl, ?_, rfl, ?_⟩ <;> rfl

/-- C7 (amended): the cache is primed at construction with the mesh id
`"default_cube"` (a 24-vertex, 36-index cube) and the texture id
`"default_white"` (a 4×4 solid white RGBA texture), both retrievable by
id; however they are not protected — `unloadMesh("default_cube")` and
`unloadTexture("default_white")` remove them like any other entry. -/
theorem default_resources_primed :
    (∃ m, getMesh mkResourceManager "default_cube" = some [m] ∧
      m.vertices.length = 24 ∧ m.indices.length = 36) ∧
    (∃ t, getTexture mkResourceManager "default_white" = some t ∧
      t.width = 4 ∧ t.height = 4 ∧ t.channels = 4 ∧
      t.pixels = (List.replicate 16 [255, 255, 255, 255]).flatten) ∧
    getMesh (unloadMesh mkResourceManager "default_cube").1 "default_cube" = none ∧
    getTexture (unloadTexture mkResourceManager "default_white").1 "default_white" = none := by
  refine ⟨⟨createCube 1 (1, 1, 1, 1), rfl, rfl, rfl⟩,
          ⟨getDefaultWhiteTexture, rfl, rfl, rfl, rfl, rfl⟩, ?_, ?_⟩ <;> rfl

theorem commitImageWrite_trunc (b ty C : Nat) (xs : List DescriptorImageInfo) :
    commitImageWrite ⟨b, ty, C, truncKeepLast C xs⟩ =
      if min xs.length C = 0 then none
      else some (WriteOp.image b 0 ty (min xs.length C)
        (xs.drop (xs.length - min xs.length C))) := by
  unfold commitImageWrite truncKeepLast
  by_cases hgt : xs.length > C
  · simp only [if_pos hgt]
    by_cases hC : C = 0
    · subst hC
      simp
    · have hlen2 : (xs.drop (xs.length - C)).length = C := by
        rw [List.length_drop]
        omega
      have hne : xs.drop (xs.length - C) ≠ [] := by
        intro h
        rw [h] at hlen2
        simp at hlen2
        omega
      have hmin : min xs.length C = C := by omega
      rw [if_neg hne, hmin, if_neg hC, hlen2, Nat.min_self, Nat.sub_self,
        List.drop_zero]
  · simp only [if_neg hgt]
    by_cases hx : xs = []
    · subst hx
      simp
    · have hx0 : xs.length ≠ 0 := by
        intro h
        exact hx (List.length_eq_zero.mp h)
      have hmin : min xs.length C = xs.length := by omega
      have hmin2 : min C xs.length = xs.length := by omega
      rw [if_neg hx, hmin, if_neg hx0, hmin2, Nat.sub_self, List.drop_zero]

theorem commitBufferWrite_trunc (b ty C : Nat) (ys : List DescriptorBufferInfo) :
    commitBufferWrite ⟨b, ty, C, truncKeepLast C ys⟩ =
      if min ys.length C = 0 then none
      else some (WriteOp.buffer b 0 ty (min ys.length C)
        (ys.drop (ys.length - min ys.length C))) := by
  unfold commitBufferWrite truncKeepLast
  by_cases hgt : ys.length > C
  · simp only [if_pos hgt]
    by_cases hC : C = 0
    · subst hC
      simp
    · have hlen2 : (ys.drop (ys.length - C)).length = C := by
        rw [List.length_drop]
        omega
      have hne : ys.drop (ys.length - C) ≠ [] := by
        intro h
        rw [h] at hlen2
        simp at hlen2
        omega
      have hmin : min ys.length C = C := by omega
      rw [if_neg hne, hmin, if_neg hC, hlen2, Nat.min_self, Nat.sub_self,
        List.drop_zero]
  · simp only [if_neg hgt]
    by_cases hy : ys = []
    · subst hy
      simp
    · have hy0 : ys.length ≠ 0 := by
        intro h
        exact hy (List.length_eq_zero.mp h)
      have hmin : min ys.length C = ys.length := by omega
      have hmin2 : min C ys.length = ys.length := by omega
      rw [if_neg hy, hmin, if_neg hy0, hmin2, Nat.sub_self, List.drop_zero]

/-- C1: for a binding with declared `descriptorCount = C` and a caller
list of `N` infos passed to `writeImages` (resp. `writeBuffers`)
followed by `update`, the writer commits exactly `min(N,C)` entries —
the caller's last `min(N,C)` elements in their original order — at
array element 0 (when `min(N,C) = 0` no write is emitted at all, i.e.
zero entries are committed). -/
theorem writer_commits_last_min (schema : DescriptorSetSchema)
    (bindingName : String) (bi : DescriptorBindingInfo)
    (xs : List DescriptorImageInfo) (ys : List DescriptorBufferInfo)
    (hfind : schema.findBinding bindingName = some bi) :
    (∃ w, (DescriptorSetWriter.begin schema).writeImages bindingName xs =
        Except.ok w ∧
      w.update.1 =
        (if min xs.length bi.descriptorCount = 0 then [] else
          [WriteOp.image bi.binding 0 bi.descriptorType
            (min xs.length bi.descriptorCount)
            (xs.drop (xs.length - min xs.length bi.descriptorCount))])) ∧
    (∃ w, (DescriptorSetWriter.begin schema).writeBuffers bindingName ys =
        Except.ok w ∧
      w.update.1 =
        (if min ys.length bi.descriptorCount = 0 then [] else
          [WriteOp.buffer bi.binding 0 bi.descriptorType
            (min ys.length bi.descriptorCount)
            (ys.drop (ys.length - min ys.length bi.descriptorCount))])) := by
  constructor
  · refine ⟨⟨schema, [], [⟨bi.binding, bi.descriptorType, bi.descriptorCount,
        truncKeepLast bi.descriptorCount xs⟩]⟩, ?_, ?_⟩
    · simp only [DescriptorSetWriter.writeImages, DescriptorSetWriter.begin, hfind]
      rfl
    · simp only [DescriptorSetWriter.update, List.filterMap_nil, List.filterMap_cons,
        commitImageWrite_trunc, List.nil_append]
      by_cases h0 : min xs.length bi.descriptorCount = 0
      · simp [h0]
      · simp [h0]
  · refine ⟨⟨schema, [⟨bi.binding, bi.descriptorType, bi.descriptorCount,
        truncKeepLast bi.descriptorCount ys⟩], []⟩, ?_, ?_⟩
    · simp only [DescriptorSetWriter.writeBuffers, DescriptorSetWriter.begin, hfind]
      rfl
    · simp only [DescriptorSetWriter.update, List.filterMap_nil, List.filterMap_cons,
        commitBufferWrite_trunc, List.append_nil]
      by_cases h0 : min ys.length bi.descriptorCount = 0
      · simp [h0]
      · simp [h0]

/-- C1 (witness): the writer on a schema with one `"uTex"` binding of
count 4, given the 6 image infos of `sixImageInfos`, commits the last 4
of them at array elements 0..3. -/
theorem writer_commits_last_min_witness :
    (∃ w, (DescriptorSetWriter.begin uTexSchema).writeImages "uTex"
        sixImageInfos = Except.ok w ∧
      w.update.1 =
        (if min sixImageInfos.length uTexBinding.descriptorCount = 0 then []
         else
          [WriteOp.image uTexBinding.binding 0 uTexBinding.descriptorType
            (min sixImageInfos.length uTexBinding.descriptorCount)
            (sixImageInfos.drop (sixImageInfos.length -
              min sixImageInfos.length uTexBinding.descriptorCount))])) ∧
    sixImageInfos.drop (sixImageInfos.length -
        min sixImageInfos.length uTexBinding.descriptorCount) =
      [⟨0, 12, 0⟩, ⟨0, 13, 0⟩, ⟨0, 14, 0⟩, ⟨0, 15, 0⟩] :=
  ⟨(writer_commits_last_min uTexSchema "uTex" uTexBinding sixImageInfos []
      (by decide)).1,
   by decide⟩

theorem acquireStagingBuffer_isOk (s : TransferManagerState) (size : Nat)
    (hinit : s.initialized = true) :
    ∃ s1 idx, acquireStagingBuffer s size = (s1, Except.ok idx) := by
  unfold acquireStagingBuffer acquireStagingFresh
  rw [if_neg (by simp [hinit])]
  split
  · split
    · exact ⟨_, _, rfl⟩
    · split
      · exact ⟨_, _, rfl⟩
      · exact ⟨_, _, rfl⟩
  · exact ⟨_, _, rfl⟩

theorem endOneTimeCommands_submissions (s : TransferManagerState)
    (regions : List BufferCopy) (queueType : TransferQueueType)
    (rel : List Nat) :
    (endOneTimeCommands s regions queueType rel).1.resources.activeSubmissions =
      (reapSubmissions s.resources.activeSubmissions
          s.resources.stagingBufferPool).1 ++
        [⟨regions,
          (if queueType = TransferQueueType.transfer ∧ s.hasTransferQueue
            then TransferQueueType.transfer else TransferQueueType.graphics),
          rel, false, true⟩] := rfl

theorem cleanup_preserves_submissions (s : TransferManagerState) :
    (cleanupUnusedStagingBuffers s).resources.activeSubmissions =
      s.resources.activeSubmissions := by
  unfold cleanupUnusedStagingBuffers
  split
  · rfl
  · rfl

theorem findFreeStagingIdx_some_spec (size : Nat)
    (pool : List StagingBufferInfo) :
    ∀ i, findFreeStagingIdx pool size = some i →
      i < pool.length ∧ (pool.getD i ⟨0, false⟩).inUse = false ∧
        size ≤ (pool.getD i ⟨0, false⟩).size ∧
        ∀ j, j < i → ¬((pool.getD j ⟨0, false⟩).inUse = false ∧
          size ≤ (pool.getD j ⟨0, false⟩).size) := by
  induction pool with
  | nil =>
      intro i h
      simp [findFreeStagingIdx] at h
  | cons info rest ih =>
      intro i h
      unfold findFreeStagingIdx at h
      by_cases hc : info.inUse = false ∧ size ≤ info.size
      · rw [if_pos hc] at h
        obtain rfl : (0 : Nat) = i := Option.some.inj h
        refine ⟨by simp, by simpa using hc.1, by simpa using hc.2, ?_⟩
        intro j hj
        omega
      · rw [if_neg hc] at h
        obtain ⟨a, ha, hai⟩ := Option.map_eq_some'.mp h
        obtain ⟨h1, h2, h3, h4⟩ := ih a ha
        subst hai
        refine ⟨by simp; omega, by simpa using h2, by simpa using h3, ?_⟩
        intro j hj
        cases j with
        | zero => simpa using hc
        | succ j2 =>
            rw [List.getD_cons_succ]
            exact h4 j2 (by omega)

theorem findFreeStagingIdx_none_iff (size : Nat)
    (pool : List StagingBufferInfo) :
    findFreeStagingIdx pool size = none ↔
      ∀ j, j < pool.length → ¬((pool.getD j ⟨0, false⟩).inUse = false ∧
        size ≤ (pool.getD j ⟨0, false⟩).size) := by
  induction pool with
  | nil => simp [findFreeStagingIdx]
  | cons info rest ih =>
      unfold findFreeStagingIdx
      by_cases hc : info.inUse = false ∧ size ≤ info.size
      · rw [if_pos hc]
        constructor
        · intro h
          exact Option.noConfusion h
        · intro hall
          exact absurd (by simpa using hc) (hall 0 (by simp))
      · rw [if_neg hc, Option.map_eq_none', ih]
        constructor
        · intro hrest j hj
          cases j with
          | zero => simpa using hc
          | succ j2 =>
              rw [List.getD_cons_succ]
              exact hrest j2 (by simpa using hj)
        · intro hall j hj
          have hx := hall (j + 1) (by simpa using hj)
          rwa [List.getD_cons_succ] at hx

/-- C6 (amended): with pooling enabled, `acquireStagingBuffer` reuses
the first not-in-use entry of capacity at least the request (marking it
in use, in place); when none fits and the pool is below
`maxPooledStagingBuffers`, it appends a new in-use buffer of size
`stagingAllocSize` — which is `max(requestedSize, min(max(requestedSize,
minBufferSize), maxBufferSize))` when `maxBufferSize > 0`, never less
than the requested size (the cap does not truncate large requests), and
equal to `max(requestedSize, minBufferSize)` for every configuration
with `minBufferSize ≤ maxBufferSize` or `maxBufferSize = 0`; when the
pool is full or pooling is disabled it appends a fresh in-use entry of
exactly the requested size. -/
theorem acquireStagingBuffer_spec (s : TransferManagerState) (size : Nat)
    (hinit : s.initialized = true) :
    (s.config.enableStagingBufferPool = true →
      ∀ i, findFreeStagingIdx s.resources.stagingBufferPool size = some i →
        i < s.resources.stagingBufferPool.length ∧
        (s.resources.stagingBufferPool.getD i ⟨0, false⟩).inUse = false ∧
        size ≤ (s.resources.stagingBufferPool.getD i ⟨0, false⟩).size ∧
        (∀ j, j < i →
          ¬((s.resources.stagingBufferPool.getD j ⟨0, false⟩).inUse = false ∧
            size ≤ (s.resources.stagingBufferPool.getD j ⟨0, false⟩).size)) ∧
        acquireStagingBuffer s size =
          (⟨s.initialized, s.hasTransferQueue, s.config,
            ⟨s.resources.stagingBufferPool.set i
              ⟨(s.resources.stagingBufferPool.getD i ⟨0, false⟩).size, true⟩,
             s.resources.activeSubmissions, s.resources.fencePool⟩,
            s.nextTokenId⟩, Except.ok i)) ∧
    (findFreeStagingIdx s.resources.stagingBufferPool size = none ↔
      ∀ j, j < s.resources.stagingBufferPool.length →
        ¬((s.resources.stagingBufferPool.getD j ⟨0, false⟩).inUse = false ∧
          size ≤ (s.resources.stagingBufferPool.getD j ⟨0, false⟩).size)) ∧
    (s.config.enableStagingBufferPool = true →
      findFreeStagingIdx s.resources.stagingBufferPool size = none →
      s.resources.stagingBufferPool.length < s.config.maxPooledStagingBuffers →
      acquireStagingBuffer s size =
        (⟨s.initialized, s.hasTransferQueue, s.config,
          ⟨s.resources.stagingBufferPool ++
              [⟨stagingAllocSize s.config size, true⟩],
           s.resources.activeSubmissions, s.resources.fencePool⟩,
          s.nextTokenId⟩,
         Except.ok s.resources.stagingBufferPool.length)) ∧
    (s.config.enableStagingBufferPool = true →
      findFreeStagingIdx s.resources.stagingBufferPool size = none →
      ¬s.resources.stagingBufferPool.length < s.config.maxPooledStagingBuffers →
      acquireStagingBuffer s size =
        (⟨s.initialized, s.hasTransferQueue, s.config,
          ⟨s.resources.stagingBufferPool ++ [⟨size, true⟩],
           s.resources.activeSubmissions, s.resources.fencePool⟩,
          s.nextTokenId⟩,
         Except.ok s.resources.stagingBufferPool.length)) ∧
    (s.config.enableStagingBufferPool = false →
      acquireStagingBuffer s size =
        (⟨s.initialized, s.hasTransferQueue, s.config,
          ⟨s.resources.stagingBufferPool ++ [⟨size, true⟩],
           s.resources.activeSubmissions, s.resources.fencePool⟩,
          s.nextTokenId⟩,
         Except.ok s.resources.stagingBufferPool.length)) ∧
    size ≤ stagingAllocSize s.config size ∧
    (s.config.maxStagingBufferSize > 0 →
      stagingAllocSize s.config size =
        max size (min (max size s.config.minStagingBufferSize)
          s.config.maxStagingBufferSize)) ∧
    (s.config.minStagingBufferSize ≤ s.config.maxStagingBufferSize ∨
        s.config.maxStagingBufferSize = 0 →
      stagingAllocSize s.config size = max size s.config.minStagingBufferSize) := by
  refine ⟨?_, findFreeStagingIdx_none_iff size s.resources.stagingBufferPool,
    ?_, ?_, ?_, ?_, ?_, ?_⟩
  · intro he i hfind
    obtain ⟨h1, h2, h3, h4⟩ :=
      findFreeStagingIdx_some_spec size s.resources.stagingBufferPool i hfind
    refine ⟨h1, h2, h3, h4, ?_⟩
    unfold acquireStagingBuffer
    rw [if_neg (by simp [hinit]), if_pos he, hfind]
  · intro he hfind hlt
    unfold acquireStagingBuffer
    rw [if_neg (by simp [hinit]), if_pos he, hfind]
    simp only [if_pos hlt]
  · intro he hfind hge
    unfold acquireStagingBuffer acquireStagingFresh
    rw [if_neg (by simp [hinit]), if_pos he, hfind]
    simp only [if_neg hge]
  · intro he
    unfold acquireStagingBuffer acquireStagingFresh
    rw [if_neg (by simp [hinit]), if_neg (by simp [he])]
  · simp only [stagingAllocSize]
    split
    · omega
    · omega
  · intro hmax
    simp only [stagingAllocSize]
    rw [if_pos hmax]
  · intro hcfg
    simp only [stagingAllocSize]
    rcases hcfg with hcfg | hcfg
    · split
      · omega
      · rfl
    · rw [if_neg (by omega)]

/-- C6 (counterexample): the claim says the newly pooled buffer's size
is `clamp(max(requestedSize, minBufferSize), _, maxBufferSize)`, i.e.
capped at `maxBufferSize`.  With `min = 4`, `max = 8` and a request of
100 on an empty pool (pooling enabled, cap 8 buffers), the claimed size
is `min (max 100 4) 8 = 8`, but the code appends a buffer of size 100:
the request is never truncated. -/
theorem acquireStagingBuffer_exceeds_claimed_clamp :
    (acquireStagingBuffer ⟨true, true, ⟨true, 8, 4, 8⟩, ⟨[], [], 0⟩, 0⟩
        100).1.resources.stagingBufferPool = [⟨100, true⟩] ∧
    min (max 100 4) 8 = 8 ∧ (100 : Nat) ≠ 8 := by
  refine ⟨rfl, rfl, ?_⟩
  decide

/-- C6 (witness): `acquireStagingBuffer_spec`'s first-fit clause on a
pool `[{10, inUse}, {10, free}]` and a request of 7: entry 1 is the
first free fitting entry and is marked in use in place. -/
theorem acquireStagingBuffer_spec_witness :
    1 < ([⟨10, true⟩, ⟨10, false⟩] : List StagingBufferInfo).length ∧
    (([⟨10, true⟩, ⟨10, false⟩] : List StagingBufferInfo).getD 1
      ⟨0, false⟩).inUse = false ∧
    7 ≤ (([⟨10, true⟩, ⟨10, false⟩] : List StagingBufferInfo).getD 1
      ⟨0, false⟩).size ∧
    (∀ j, j < 1 →
      ¬((([⟨10, true⟩, ⟨10, false⟩] : List StagingBufferInfo).getD j
          ⟨0, false⟩).inUse = false ∧
        7 ≤ (([⟨10, true⟩, ⟨10, false⟩] : List StagingBufferInfo).getD j
          ⟨0, false⟩).size)) ∧
    acquireStagingBuffer
        ⟨true, true, ⟨true, 8, 4, 64⟩, ⟨[⟨10, true⟩, ⟨10, false⟩], [], 0⟩, 5⟩
        7 =
      (⟨true, true, ⟨true, 8, 4, 64⟩,
        ⟨([⟨10, true⟩, ⟨10, false⟩] : List StagingBufferInfo).set 1
          ⟨(([⟨10, true⟩, ⟨10, false⟩] : List StagingBufferInfo).getD 1
            ⟨0, false⟩).size, true⟩, [], 0⟩, 5⟩, Except.ok 1) :=
  (acquireStagingBuffer_spec
    ⟨true, true, ⟨true, 8, 4, 64⟩, ⟨[⟨10, true⟩, ⟨10, false⟩], [], 0⟩, 5⟩
    7 rfl).1 rfl 1 (by decide)

/-- C5: given an initialized transfer engine and a valid destination
buffer, `uploadToBuffer(dst, bytes, size, dstOffset)` fails with
`OutOfRange` exactly when `dstOffset ≥ dst.size` or
`size > dst.size - dstOffset`; in that case the whole engine state is
unchanged (no staging buffer acquired, no command list recorded, no
submission); otherwise it returns a completion token and the appended
submission records a single-region buffer copy
`{srcOffset 0, dstOffset, size}`. -/
theorem uploadToBuffer_range_check (s : TransferManagerState)
    (dst : ManagedBuffer) (size dstOffset : Nat)
    (hinit : s.initialized = true) (hvalid : dst.valid = true) :
    ((uploadToBuffer s dst size dstOffset).2 = Except.error Err.outOfRange ↔
      dst.size ≤ dstOffset ∨ dst.size - dstOffset < size) ∧
    (dst.size ≤ dstOffset ∨ dst.size - dstOffset < size →
      (uploadToBuffer s dst size dstOffset).1 = s) ∧
    (¬(dst.size ≤ dstOffset ∨ dst.size - dstOffset < size) →
      ∃ tok sub,
        (uploadToBuffer s dst size dstOffset).2 = Except.ok tok ∧
        (uploadToBuffer s dst size
            dstOffset).1.resources.activeSubmissions.getLast? = some sub ∧
        sub.regions = [⟨0, dstOffset, size⟩] ∧
        sub.stagingBuffersToRelease.length = 1) := by
  obtain ⟨s1, idx, hacq⟩ := acquireStagingBuffer_isOk s size hinit
  unfold uploadToBuffer
  rw [if_neg (by simp [hinit]), if_neg (by simp [hvalid])]
  by_cases h1 : dst.size ≤ dstOffset
  · rw [if_pos h1]
    refine ⟨?_, ?_, ?_⟩
    · simp [h1]
    · intro _
      rfl
    · intro h
      exact absurd (Or.inl h1) h
  · rw [if_neg h1]
    by_cases h2 : dst.size - dstOffset < size
    · rw [if_pos h2]
      refine ⟨?_, ?_, ?_⟩
      · simp [h2]
      · intro _
        rfl
      · intro h
        exact absurd (Or.inr h2) h
    · rw [if_neg h2, hacq]
      refine ⟨?_, ?_, ?_⟩
      · simp [h1, h2]
      · intro h
        rcases h with h | h
        · exact absurd h h1
        · exact absurd h h2
      · intro _
        refine ⟨(endOneTimeCommands s1 [⟨0, dstOffset, size⟩]
            TransferQueueType.transfer [idx]).2,
          ⟨[⟨0, dstOffset, size⟩],
            (if TransferQueueType.transfer = TransferQueueType.transfer ∧
                s1.hasTransferQueue
              then TransferQueueType.transfer else TransferQueueType.graphics),
            [idx], false, true⟩, rfl, ?_, rfl, rfl⟩
        rw [cleanup_preserves_submissions, endOneTimeCommands_submissions,
          List.getLast?_concat]

/-- C5 (witness): `uploadToBuffer_range_check` on an initialized engine
and a valid 16-byte buffer: the out-of-range condition is refuted for a
4-byte upload at offset 8, and a token plus single-region submission
result. -/
theorem uploadToBuffer_range_check_witness :
    ∃ tok sub,
      (uploadToBuffer ⟨true, true, ⟨true, 8, 4, 64⟩, ⟨[], [], 0⟩, 0⟩
          ⟨16, "vtx", true, []⟩ 4 8).2 = Except.ok tok ∧
      (uploadToBuffer ⟨true, true, ⟨true, 8, 4, 64⟩, ⟨[], [], 0⟩, 0⟩
          ⟨16, "vtx", true, []⟩ 4
          8).1.resources.activeSubmissions.getLast? = some sub ∧
      sub.regions = [⟨0, 8, 4⟩] ∧
      sub.stagingBuffersToRelease.length = 1 :=
  (uploadToBuffer_range_check ⟨true, true, ⟨true, 8, 4, 64⟩, ⟨[], [], 0⟩, 0⟩
    ⟨16, "vtx", true, []⟩ 4 8 rfl rfl).2.2 (by decide)

/-- C10: `writeToUniformBuffer` validates like the GPU upload paths: it
errors when the engine is uninitialized or the destination buffer is
invalid; given an initialized engine and valid buffer it raises
`OutOfRange` exactly when `dstOffset ≥ dst.size` or
`size > dst.size - dstOffset`; no bytes are written in any error case
(no contents are produced), and on success it copies exactly `size`
bytes of `data` to offset `dstOffset`, leaving every other byte of the
buffer unchanged. -/
theorem writeToUniformBuffer_spec (s : TransferManagerState)
    (dst : ManagedBuffer) (data : List Nat) (size dstOffset : Nat)
    (hlen : dst.contents.length = dst.size) (hdata : size ≤ data.length) :
    (s.initialized = false ∨ dst.valid = false →
      ∃ e, writeToUniformBuffer s dst data size dstOffset = Except.error e) ∧
    (s.initialized = true → dst.valid = true →
      (writeToUniformBuffer s dst data size dstOffset = Except.error Err.outOfRange ↔
        dst.size ≤ dstOffset ∨ dst.size - dstOffset < size)) ∧
    (s.initialized = true → dst.valid = true →
      ¬(dst.size ≤ dstOffset ∨ dst.size - dstOffset < size) →
      ∃ out, writeToUniformBuffer s dst data size dstOffset = Except.ok out ∧
        out.length = dst.contents.length ∧
        ∀ i, i < dst.contents.length →
          out[i]? = if dstOffset ≤ i ∧ i < dstOffset + size
            then data[i - dstOffset]? else dst.contents[i]?) := by
  refine ⟨?_, ?_, ?_⟩
  · rintro (h | h)
    · exact ⟨Err.notInitialized, by simp [writeToUniformBuffer, h]⟩
    · unfold writeToUniformBuffer
      by_cases hi : s.initialized = false
      · exact ⟨Err.notInitialized, by simp [hi]⟩
      · exact ⟨Err.invalidArgument, by simp [hi, h]⟩
  · intro hi hv
    unfold writeToUniformBuffer
    rw [hi, hv]
    simp only [Bool.true_eq_false, if_false]
    constructor
    · intro h
      by_cases h1 : dst.size ≤ dstOffset
      · exact Or.inl h1
      · right
        by_cases h2 : dst.size - dstOffset < size
        · exact h2
        · simp [h1, h2] at h
    · rintro (h | h)
      · simp [h]
      · by_cases h1 : dst.size ≤ dstOffset
        · simp [h1]
        · simp [h1, h]
  · intro hi hv hrange
    push_neg at hrange
    obtain ⟨h1, h2⟩ := hrange
    have h1n : ¬dst.size ≤ dstOffset := by omega
    have h2n : ¬dst.size - dstOffset < size := by omega
    refine ⟨writeBytes dst.contents dstOffset (data.take size), ?_, ?_, ?_⟩
    · unfold writeToUniformBuffer
      rw [hi, hv]
      simp [h1n, h2n]
    · simp only [writeBytes, List.length_append, List.length_take,
        List.length_drop]
      omega
    · intro i hilt
      have htk : (data.take size).length = size := by
        rw [List.length_take]
        omega
      have htk2 : (dst.contents.take dstOffset).length = dstOffset := by
        rw [List.length_take]
        omega
      simp only [writeBytes, List.getElem?_append, List.length_append,
        htk, htk2, List.getElem?_take, List.getElem?_drop]
      by_cases hlo : i < dstOffset
      · simp only [if_pos (by omega : i < dstOffset + size), if_pos hlo,
          if_pos (by omega : i < dstOffset)]
        rw [if_neg (by omega)]
      · by_cases hhi : i < dstOffset + size
        · simp only [if_pos (by omega : i < dstOffset + size), if_neg hlo]
          rw [if_pos (by omega : i - dstOffset < size),
            if_pos (by omega : dstOffset ≤ i ∧ i < dstOffset + size)]
        · simp only [if_neg (by omega : ¬i < dstOffset + size)]
          rw [if_neg (by omega : ¬(dstOffset ≤ i ∧ i < dstOffset + size))]
          congr 1
          omega

/-- C10 (witness): the success clause of `writeToUniformBuffer_spec` on
a valid 8-byte buffer (initialized engine) with a 3-byte write at
offset 2. -/
theorem writeToUniformBuffer_spec_witness :
    ∃ out, writeToUniformBuffer
        ⟨true, true, ⟨true, 8, 4, 64⟩, ⟨[], [], 0⟩, 0⟩
        ⟨8, "ubo", true, [9, 9, 9, 9, 9, 9, 9, 9]⟩
        [1, 2, 3] 3 2 = Except.ok out ∧
      out.length = ([9, 9, 9, 9, 9, 9, 9, 9] : List Nat).length ∧
      ∀ i, i < ([9, 9, 9, 9, 9, 9, 9, 9] : List Nat).length →
        out[i]? = if 2 ≤ i ∧ i < 2 + 3 then ([1, 2, 3] : List Nat)[i - 2]?
          else ([9, 9, 9, 9, 9, 9, 9, 9] : List Nat)[i]? :=
  (writeToUniformBuffer_spec ⟨true, true, ⟨true, 8, 4, 64⟩, ⟨[], [], 0⟩, 0⟩
    ⟨8, "ubo", true, [9, 9, 9, 9, 9, 9, 9, 9]⟩ [1, 2, 3] 3 2
    (by decide) (by decide)).2.2 rfl rfl (by decide)

-- =====================================================================
-- Layout cache lemmas and theorems (C2, C4)
-- =====================================================================

theorem assocFind_upsert {κ ν : Type} [DecidableEq κ] (l : List (κ × ν))
    (key k : κ) (v : ν) :
    assocFind (assocUpsert l key v) k =
      if key = k then some v else assocFind l k := by
  induction l with
  | nil => rfl
  | cons p rest ih =>
      obtain ⟨pk, pv⟩ := p
      unfold assocUpsert
      by_cases hpk : pk = key
      · subst hpk
        by_cases hk : pk = k
        · simp [hk]
        · simp [hk, assocFind]
      · rw [if_neg hpk]
        by_cases hk : pk = k
        · subst hk
          have : ¬key = pk := fun h => hpk h.symm
          simp [assocFind, this]
        · simp [assocFind, hk, ih]

theorem layoutCacheInv_empty : LayoutCacheInv emptyLayoutCache := by
  refine ⟨?_, ?_, ?_⟩
  · intro i ts id h
    simp [emptyLayoutCache, assocFind] at h
  · intro n i id h
    simp [emptyLayoutCache, assocFind] at h
  · intro k id h
    simp [emptyLayoutCache, assocFind] at h

theorem registerByStructure_ok (s : LayoutCacheState) (n : String) (i : Nat)
    (canonical : List DescriptorBindingInfo) :
    ∃ s2 id, registerByStructure s n i canonical = Except.ok (s2, id) := by
  unfold registerByStructure
  cases assocFind s.byKey (i, structTuples canonical) with
  | some id => exact ⟨_, _, rfl⟩
  | none => exact ⟨_, _, rfl⟩

theorem registerByStructure_byKey (s : LayoutCacheState) (n : String) (i : Nat)
    (canonical : List DescriptorBindingInfo) (s2 : LayoutCacheState) (id : Nat)
    (h : registerByStructure s n i canonical = Except.ok (s2, id)) :
    assocFind s2.byKey (i, structTuples canonical) = some id := by
  unfold registerByStructure at h
  cases hk : assocFind s.byKey (i, structTuples canonical) with
  | some id0 =>
      rw [hk] at h
      obtain ⟨h1, h2⟩ := Prod.mk.injEq .. ▸ Except.ok.inj h
      subst h2
      rw [← h1]
      exact hk
  | none =>
      rw [hk] at h
      obtain ⟨h1, h2⟩ := Prod.mk.injEq .. ▸ Except.ok.inj h
      subst h2
      rw [← h1]
      simp [assocFind]

theorem registerByStructure_mono (s : LayoutCacheState) (n : String) (i : Nat)
    (canonical : List DescriptorBindingInfo) (s2 : LayoutCacheState) (id : Nat)
    (k : Nat × List LayoutBindingKey) (idk : Nat)
    (hks : assocFind s.byKey k = some idk)
    (h : registerByStructure s n i canonical = Except.ok (s2, id)) :
    assocFind s2.byKey k = some idk := by
  unfold registerByStructure at h
  cases hk : assocFind s.byKey (i, structTuples canonical) with
  | some id0 =>
      rw [hk] at h
      obtain ⟨h1, h2⟩ := Prod.mk.injEq .. ▸ Except.ok.inj h
      rw [← h1]
      exact hks
  | none =>
      rw [hk] at h
      obtain ⟨h1, h2⟩ := Prod.mk.injEq .. ▸ Except.ok.inj h
      rw [← h1]
      rw [assocFind_cons, if_neg]
      · exact hks
      · intro he
        rw [he, hks] at hk
        exact Option.noConfusion hk

theorem registerByStructure_preserves_inv (s : LayoutCacheState) (n : String)
    (i : Nat) (canonical : List DescriptorBindingInfo) (s2 : LayoutCacheState)
    (id : Nat) (hInv : LayoutCacheInv s)
    (h : registerByStructure s n i canonical = Except.ok (s2, id)) :
    LayoutCacheInv s2 := by
  obtain ⟨hKey, hName, hBound⟩ := hInv
  unfold registerByStructure at h
  cases hk : assocFind s.byKey (i, structTuples canonical) with
  | some id0 =>
      rw [hk] at h
      obtain ⟨h1, h2⟩ := Prod.mk.injEq .. ▸ Except.ok.inj h
      subst h2
      rw [← h1]
      refine ⟨hKey, ?_, hBound⟩
      intro n2 i2 id2 h2
      rw [assocFind_upsert] at h2
      by_cases hcond : makeNameKey n i = makeNameKey n2 i2
      · rw [if_pos hcond] at h2
        obtain rfl := Option.some.inj h2
        obtain ⟨rfl, rfl⟩ : n = n2 ∧ i = i2 := by
          simpa [makeNameKey, Prod.ext_iff] using hcond
        exact ⟨structTuples canonical, hk⟩
      · rw [if_neg hcond] at h2
        exact hName n2 i2 id2 h2
  | none =>
      rw [hk] at h
      obtain ⟨h1, h2⟩ := Prod.mk.injEq .. ▸ Except.ok.inj h
      subst h2
      rw [← h1]
      refine ⟨?_, ?_, ?_⟩
      · intro i2 ts2 id2 h2
        rw [assocFind_cons] at h2
        by_cases hcond : ((i, structTuples canonical) : Nat × List LayoutBindingKey) = (i2, ts2)
        · rw [if_pos hcond] at h2
          obtain rfl := Option.some.inj h2
          obtain ⟨rfl, rfl⟩ := Prod.mk.injEq .. ▸ hcond
          refine ⟨⟨n, i, canonical⟩, ?_, rfl⟩
          simp [assocFind]
        · rw [if_neg hcond] at h2
          obtain ⟨sch, hsch, hts⟩ := hKey i2 ts2 id2 h2
          refine ⟨sch, ?_, hts⟩
          rw [assocFind_cons, if_neg]
          · exact hsch
          · intro he
            have hlt := hBound _ _ h2
            omega
      · intro n2 i2 id2 h2
        rw [assocFind_upsert] at h2
        by_cases hcond : makeNameKey n i = makeNameKey n2 i2
        · rw [if_pos hcond] at h2
          obtain rfl := Option.some.inj h2
          obtain ⟨rfl, rfl⟩ : n = n2 ∧ i = i2 := by
            simpa [makeNameKey, Prod.ext_iff] using hcond
          refine ⟨structTuples canonical, ?_⟩
          simp [assocFind]
        · rw [if_neg hcond] at h2
          obtain ⟨ts, hts⟩ := hName n2 i2 id2 h2
          refine ⟨ts, ?_⟩
          rw [assocFind_cons, if_neg]
          · exact hts
          · intro he
            rw [he, hts] at hk
            exact Option.noConfusion hk
      · intro k2 id2 h2
        rw [assocFind_cons] at h2
        by_cases hcond : ((i, structTuples canonical) : Nat × List LayoutBindingKey) = k2
        · rw [if_pos hcond] at h2
          obtain rfl := Option.some.inj h2
          exact Nat.lt_succ_self _
        · rw [if_neg hcond] at h2
          exact Nat.lt_succ_of_lt (hBound k2 id2 h2)

theorem registerByStructure_determined (s : LayoutCacheState) (n : String)
    (i : Nat) (canonical : List DescriptorBindingInfo) (s2 : LayoutCacheState)
    (id idk : Nat)
    (hks : assocFind s.byKey (i, structTuples canonical) = some idk)
    (h : registerByStructure s n i canonical = Except.ok (s2, id)) :
    id = idk := by
  unfold registerByStructure at h
  rw [hks] at h
  obtain ⟨h1, h2⟩ := Prod.mk.injEq .. ▸ Except.ok.inj h
  exact h2.symm

theorem registerSetLayout_ok_byKey (s : LayoutCacheState) (n : String)
    (i : Nat) (bs : List DescriptorBindingInfo) (s2 : LayoutCacheState)
    (id : Nat) (hInv : LayoutCacheInv s)
    (h : registerSetLayout s n i bs = Except.ok (s2, id)) :
    assocFind s2.byKey (i, structTuples (sortByBinding bs)) = some id := by
  obtain ⟨hKey, hName, hBound⟩ := hInv
  simp only [registerSetLayout] at h
  split at h
  next id0 hname =>
    split at h
    next existing hsch =>
      split at h
      next hcond =>
        obtain ⟨h1, h2⟩ := Prod.mk.injEq .. ▸ Except.ok.inj h
        subst h2
        rw [← h1]
        obtain ⟨ts, hts⟩ := hName n i id0 hname
        obtain ⟨sch, hsch2, htseq⟩ := hKey i ts id0 hts
        rw [hsch2] at hsch
        obtain rfl := Option.some.inj hsch
        rw [htseq, hcond] at hts
        exact hts
      next hcond => exact Except.noConfusion h
    next hsch => exact registerByStructure_byKey s n i (sortByBinding bs) s2 id h
  next hname => exact registerByStructure_byKey s n i (sortByBinding bs) s2 id h

theorem registerSetLayout_preserves_inv (s : LayoutCacheState) (n : String)
    (i : Nat) (bs : List DescriptorBindingInfo) (s2 : LayoutCacheState)
    (id : Nat) (hInv : LayoutCacheInv s)
    (h : registerSetLayout s n i bs = Except.ok (s2, id)) :
    LayoutCacheInv s2 := by
  simp only [registerSetLayout] at h
  split at h
  next id0 hname =>
    split at h
    next existing hsch =>
      split at h
      next hcond =>
        obtain ⟨h1, h2⟩ := Prod.mk.injEq .. ▸ Except.ok.inj h
        rw [← h1]
        exact hInv
      next hcond => exact Except.noConfusion h
    next hsch =>
      exact registerByStructure_preserves_inv s n i (sortByBinding bs) s2 id hInv h
  next hname =>
    exact registerByStructure_preserves_inv s n i (sortByBinding bs) s2 id hInv h

theorem registerSetLayout_mono (s : LayoutCacheState) (n : String) (i : Nat)
    (bs : List DescriptorBindingInfo) (s2 : LayoutCacheState) (id : Nat)
    (k : Nat × List LayoutBindingKey) (idk : Nat)
    (hks : assocFind s.byKey k = some idk)
    (h : registerSetLayout s n i bs = Except.ok (s2, id)) :
    assocFind s2.byKey k = some idk := by
  simp only [registerSetLayout] at h
  split at h
  next id0 hname =>
    split at h
    next existing hsch =>
      split at h
      next hcond =>
        obtain ⟨h1, h2⟩ := Prod.mk.injEq .. ▸ Except.ok.inj h
        rw [← h1]
        exact hks
      next hcond => exact Except.noConfusion h
    next hsch =>
      exact registerByStructure_mono s n i (sortByBinding bs) s2 id k idk hks h
  next hname =>
    exact registerByStructure_mono s n i (sortByBinding bs) s2 id k idk hks h

theorem registerSetLayout_determined (s : LayoutCacheState) (n : String)
    (i : Nat) (bs : List DescriptorBindingInfo) (s2 : LayoutCacheState)
    (id idk : Nat) (hInv : LayoutCacheInv s)
    (hks : assocFind s.byKey (i, structTuples (sortByBinding bs)) = some idk)
    (h : registerSetLayout s n i bs = Except.ok (s2, id)) :
    id = idk := by
  obtain ⟨hKey, hName, hBound⟩ := hInv
  simp only [registerSetLayout] at h
  split at h
  next id0 hname =>
    split at h
    next existing hsch =>
      split at h
      next hcond =>
        obtain ⟨h1, h2⟩ := Prod.mk.injEq .. ▸ Except.ok.inj h
        subst h2
        obtain ⟨ts, hts⟩ := hName n i id0 hname
        obtain ⟨sch, hsch2, htseq⟩ := hKey i ts id0 hts
        rw [hsch2] at hsch
        obtain rfl := Option.some.inj hsch
        rw [htseq, hcond] at hts
        rw [hts] at hks
        exact Option.some.inj hks
      next hcond => exact Except.noConfusion h
    next hsch =>
      exact registerByStructure_determined s n i (sortByBinding bs) s2 id idk hks h
  next hname =>
    exact registerByStructure_determined s n i (sortByBinding bs) s2 id idk hks h

theorem applyRegisterRequest_preserves_inv (s : LayoutCacheState)
    (r : LayoutRegisterRequest) (hInv : LayoutCacheInv s) :
    LayoutCacheInv (applyRegisterRequest s r) := by
  unfold applyRegisterRequest
  cases h : registerSetLayout s r.schemaName r.setIndex r.bindings with
  | ok p =>
      exact registerSetLayout_preserves_inv s r.schemaName r.setIndex r.bindings
        p.1 p.2 hInv h
  | error e => exact hInv

theorem applyRegisterRequest_mono (s : LayoutCacheState)
    (r : LayoutRegisterRequest) (k : Nat × List LayoutBindingKey) (idk : Nat)
    (hks : assocFind s.byKey k = some idk) :
    assocFind (applyRegisterRequest s r).byKey k = some idk := by
  unfold applyRegisterRequest
  cases h : registerSetLayout s r.schemaName r.setIndex r.bindings with
  | ok p =>
      exact registerSetLayout_mono s r.schemaName r.setIndex r.bindings
        p.1 p.2 k idk hks h
  | error e => exact hks

theorem runRegisterRequests_preserves_inv (rs : List LayoutRegisterRequest) :
    ∀ s, LayoutCacheInv s → LayoutCacheInv (runRegisterRequests s rs) := by
  induction rs with
  | nil => intro s h; exact h
  | cons r rest ih =>
      intro s h
      exact ih (applyRegisterRequest s r) (applyRegisterRequest_preserves_inv s r h)

theorem runRegisterRequests_mono (rs : List LayoutRegisterRequest) :
    ∀ s (k : Nat × List LayoutBindingKey) (idk : Nat),
      assocFind s.byKey k = some idk →
      assocFind (runRegisterRequests s rs).byKey k = some idk := by
  induction rs with
  | nil => intro s k idk h; exact h
  | cons r rest ih =>
      intro s k idk h
      exact ih (applyRegisterRequest s r) k idk (applyRegisterRequest_mono s r k idk h)

/-- C2: if `(schemaName, setIndex)` is already registered (the name key
resolves to a stored schema), re-registering with a structurally
identical binding list (equal `{binding, type, count, stageFlags}`
sequences after sorting by binding index; names ignored) returns the
previously registered schema with the cache unchanged, and
re-registering with a structurally different binding list fails with
the schema-structure-mismatch error. -/
theorem registerSetLayout_reregistration (s : LayoutCacheState) (n : String)
    (i : Nat) (bs : List DescriptorBindingInfo) (id : Nat)
    (sch : DescriptorSetSchema)
    (hname : assocFind s.byName (makeNameKey n i) = some id)
    (hschema : assocFind s.schemas id = some sch) :
    (structTuples (sortByBinding bs) = structTuples sch.bindings →
      registerSetLayout s n i bs = Except.ok (s, id)) ∧
    (structTuples (sortByBinding bs) ≠ structTuples sch.bindings →
      registerSetLayout s n i bs = Except.error Err.incompatibleSchema) := by
  constructor
  · intro heq
    simp only [registerSetLayout, hname, hschema]
    rw [if_pos heq.symm]
  · intro hne
    simp only [registerSetLayout, hname, hschema]
    rw [if_neg (fun h => hne h.symm)]

/-- C2 (witness): register a one-binding schema `"mat"` at set 0 from
the empty cache; re-registering with the same structure under a
different binding order returns the same schema and state, and
re-registering with a different descriptor count fails. -/
theorem registerSetLayout_reregistration_witness :
    (registerSetLayout
        (applyRegisterRequest emptyLayoutCache
          ⟨"mat", 0, [⟨"uTex", 2, 1, 4, 16⟩, ⟨"uCam", 0, 6, 1, 1⟩]⟩)
        "mat" 0 [⟨"uCam2", 0, 6, 1, 1⟩, ⟨"uTex2", 2, 1, 4, 16⟩] =
      Except.ok
        (applyRegisterRequest emptyLayoutCache
          ⟨"mat", 0, [⟨"uTex", 2, 1, 4, 16⟩, ⟨"uCam", 0, 6, 1, 1⟩]⟩, 0)) ∧
    (registerSetLayout
        (applyRegisterRequest emptyLayoutCache
          ⟨"mat", 0, [⟨"uTex", 2, 1, 4, 16⟩, ⟨"uCam", 0, 6, 1, 1⟩]⟩)
        "mat" 0 [⟨"uCam", 0, 6, 1, 1⟩, ⟨"uTex", 2, 1, 2, 16⟩] =
      Except.error Err.incompatibleSchema) :=
  ⟨(registerSetLayout_reregistration
      (applyRegisterRequest emptyLayoutCache
        ⟨"mat", 0, [⟨"uTex", 2, 1, 4, 16⟩, ⟨"uCam", 0, 6, 1, 1⟩]⟩)
      "mat" 0 [⟨"uCam2", 0, 6, 1, 1⟩, ⟨"uTex2", 2, 1, 4, 16⟩] 0
      ⟨"mat", 0, [⟨"uCam", 0, 6, 1, 1⟩, ⟨"uTex", 2, 1, 4, 16⟩]⟩
      (by decide) (by decide)).1 (by decide),
   (registerSetLayout_reregistration
      (applyRegisterRequest emptyLayoutCache
        ⟨"mat", 0, [⟨"uTex", 2, 1, 4, 16⟩, ⟨"uCam", 0, 6, 1, 1⟩]⟩)
      "mat" 0 [⟨"uCam", 0, 6, 1, 1⟩, ⟨"uTex", 2, 1, 2, 16⟩] 0
      ⟨"mat", 0, [⟨"uCam", 0, 6, 1, 1⟩, ⟨"uTex", 2, 1, 4, 16⟩]⟩
      (by decide) (by decide)).2 (by decide)⟩

/-- C4: starting from any reachable cache state (a sequence of
registrations from the empty cache), two successful `registerSetLayout`
calls whose binding sequences are structurally equal (same set index
and, after sorting by binding index, the same `{binding, type, count,
stageFlags}` sequence) — with any other registrations in between, and
regardless of the schema names used — return the same schema. -/
theorem registerSetLayout_structural_identity
    (reqs0 mid : List LayoutRegisterRequest) (n1 n2 : String) (i : Nat)
    (bs1 bs2 : List DescriptorBindingInfo) (s1 s2 : LayoutCacheState)
    (id1 id2 : Nat)
    (hstruct : structTuples (sortByBinding bs1) = structTuples (sortByBinding bs2))
    (h1 : registerSetLayout (runRegisterRequests emptyLayoutCache reqs0) n1 i
      bs1 = Except.ok (s1, id1))
    (h2 : registerSetLayout (runRegisterRequests s1 mid) n2 i bs2 =
      Except.ok (s2, id2)) :
    id1 = id2 := by
  have hInv0 : LayoutCacheInv (runRegisterRequests emptyLayoutCache reqs0) :=
    runRegisterRequests_preserves_inv reqs0 emptyLayoutCache layoutCacheInv_empty
  have hkey1 : assocFind s1.byKey (i, structTuples (sortByBinding bs1)) = some id1 :=
    registerSetLayout_ok_byKey _ n1 i bs1 s1 id1 hInv0 h1
  have hInv1 : LayoutCacheInv s1 :=
    registerSetLayout_preserves_inv _ n1 i bs1 s1 id1 hInv0 h1
  have hkeyMid : assocFind (runRegisterRequests s1 mid).byKey
      (i, structTuples (sortByBinding bs1)) = some id1 :=
    runRegisterRequests_mono mid s1 _ id1 hkey1
  have hInvMid : LayoutCacheInv (runRegisterRequests s1 mid) :=
    runRegisterRequests_preserves_inv mid s1 hInv1
  rw [hstruct] at hkeyMid
  exact (registerSetLayout_determined _ n2 i bs2 s2 id2 id1 hInvMid hkeyMid h2).symm

/-- C4 (witness): register `[b]` from the empty cache under name `"A"`,
then register a structurally equal list under a different name `"B"`:
both calls return schema 0. -/
theorem registerSetLayout_structural_identity_witness :
    registerSetLayout (runRegisterRequests emptyLayoutCache []) "A" 0
        [⟨"uTex", 2, 1, 4, 16⟩] =
      Except.ok
        (⟨[((0, [⟨2, 1, 4, 16⟩]), 0)], [(("A", 0), 0)],
          [(0, ⟨"A", 0, [⟨"uTex", 2, 1, 4, 16⟩]⟩)], 1⟩, 0) ∧
    registerSetLayout
        (runRegisterRequests
          (⟨[((0, [⟨2, 1, 4, 16⟩]), 0)], [(("A", 0), 0)],
            [(0, ⟨"A", 0, [⟨"uTex", 2, 1, 4, 16⟩]⟩)], 1⟩ : LayoutCacheState)
          []) "B" 0 [⟨"renamed", 2, 1, 4, 16⟩] =
      Except.ok
        (⟨[((0, [⟨2, 1, 4, 16⟩]), 0)], [(("A", 0), 0), (("B", 0), 0)],
          [(0, ⟨"A", 0, [⟨"uTex", 2, 1, 4, 16⟩]⟩)], 1⟩, 0) ∧
    (0 : Nat) = 0 :=
  ⟨by rfl, by rfl,
   registerSetLayout_structural_identity [] [] "A" "B" 0
     [⟨"uTex", 2, 1, 4, 16⟩] [⟨"renamed", 2, 1, 4, 16⟩] _ _ 0 0
     (by decide) (by rfl) (by rfl)⟩

-- =====================================================================
-- Reflection-merge lemmas and theorem (C3)
-- =====================================================================

theorem mem_dedupFirst {α : Type} [DecidableEq α] (l : List α) (a : α) :
    a ∈ dedupFirst l ↔ a ∈ l := by
  induction l using dedupFirst.induct with
  | case1 => simp [dedupFirst]
  | case2 k ks ih =>
      rw [dedupFirst, List.mem_cons, ih, List.mem_filter, List.mem_cons]
      by_cases hak : a = k <;> simp [hak]

theorem nodup_dedupFirst {α : Type} [DecidableEq α] (l : List α) :
    (dedupFirst l).Nodup := by
  induction l using dedupFirst.induct with
  | case1 => simp [dedupFirst]
  | case2 k ks ih =>
      rw [dedupFirst]
      refine List.Nodup.cons ?_ ih
      intro hmem
      have hk := (mem_dedupFirst _ k).mp hmem
      simp [List.mem_filter] at hk

theorem dedupFirst_snoc {α : Type} [DecidableEq α] (l : List α) (k : α) :
    dedupFirst (l ++ [k]) =
      if k ∈ l then dedupFirst l else dedupFirst l ++ [k] := by
  induction l using dedupFirst.induct with
  | case1 => simp [dedupFirst]
  | case2 k0 ks ih =>
      rw [List.cons_append, dedupFirst, List.filter_append]
      by_cases hk : k = k0
      · subst hk
        have hf1 : List.filter (fun k2 => decide (k2 ≠ k)) [k] = [] := by simp
        rw [hf1, List.append_nil, if_pos (by exact List.mem_cons_self k ks)]
        conv_rhs => rw [dedupFirst]
      · have hfk : List.filter (fun k2 => decide (k2 ≠ k0)) [k] = [k] := by
          simp [hk]
        rw [hfk, ih]
        have hmemf : k ∈ List.filter (fun k2 => decide (k2 ≠ k0)) ks ↔ k ∈ ks := by
          simp [List.mem_filter, hk]
        by_cases hmem : k ∈ ks
        · rw [if_pos (hmemf.mpr hmem), if_pos (by simp [hmem])]
          conv_rhs => rw [dedupFirst]
        · rw [if_neg (fun hq => hmem (hmemf.mp hq)), if_neg (by simp [hmem, hk])]
          conv_rhs => rw [dedupFirst]
          rfl

theorem mapNoop {α : Type} {f : α → α} {l : List α}
    (h : ∀ z ∈ l, f z = z) : l.map f = l := by
  induction l with
  | nil => rfl
  | cons x xs ih =>
      rw [List.map_cons, h x (by simp), ih (fun z hz => h z (by simp [hz]))]

theorem mergeBinding_not_mem (acc : List DescriptorBindingInfo)
    (b : DescriptorBindingInfo)
    (h : bindingKeyOf b ∉ acc.map bindingKeyOf) :
    mergeBinding acc b = Except.ok (acc ++ [b]) := by
  induction acc with
  | nil => rfl
  | cons x xs ih =>
      rw [List.map_cons, List.mem_cons] at h
      push_neg at h
      rw [mergeBinding, if_neg (fun he => h.1 he.symm), ih h.2]
      rfl

theorem mergeBinding_mem (acc : List DescriptorBindingInfo)
    (b x : DescriptorBindingInfo)
    (hnd : (acc.map bindingKeyOf).Nodup) (hx : x ∈ acc)
    (hkey : bindingKeyOf x = bindingKeyOf b) :
    mergeBinding acc b =
      if x.descriptorCount ≠ b.descriptorCount then
        Except.error Err.descriptorCountMismatch
      else
        Except.ok (acc.map (fun y =>
          if bindingKeyOf y = bindingKeyOf b then
            { y with stageFlags := y.stageFlags ||| b.stageFlags }
          else y)) := by
  induction acc with
  | nil => cases hx
  | cons y ys ih =>
      rw [List.map_cons, List.nodup_cons] at hnd
      rw [mergeBinding]
      rcases List.mem_cons.mp hx with rfl | hx2
      · rw [if_pos hkey]
        have hys : ∀ z ∈ ys, ¬bindingKeyOf z = bindingKeyOf b := by
          intro z hz he
          exact hnd.1 (by rw [hkey, ← he]; exact List.mem_map_of_mem _ hz)
        by_cases hcnt : x.descriptorCount ≠ b.descriptorCount
        · rw [if_pos hcnt, if_pos hcnt]
        · rw [if_neg hcnt, if_neg hcnt, List.map_cons, if_pos hkey]
          have htail : ys.map (fun y =>
              if bindingKeyOf y = bindingKeyOf b then
                { y with stageFlags := y.stageFlags ||| b.stageFlags }
              else y) = ys :=
            mapNoop (fun z hz => if_neg (hys z hz))
          rw [htail]
      · have hyb : ¬bindingKeyOf y = bindingKeyOf b := by
          intro he
          apply hnd.1
          rw [he, ← hkey]
          exact List.mem_map_of_mem _ hx2
        rw [if_neg hyb, ih hnd.2 hx2]
        by_cases hcnt : x.descriptorCount ≠ b.descriptorCount
        · simp only [if_pos hcnt]
          rfl
        · simp only [if_neg hcnt, List.map_cons, if_neg hyb]
          rfl

theorem specMergeEntry_key_of (ms : List DescriptorBindingInfo) (k : Nat × Nat)
    (hne : ms ≠ []) (hall : ∀ m ∈ ms, bindingKeyOf m = k) :
    bindingKeyOf (specMergeEntry ms) = k := by
  cases ms with
  | nil => exact absurd rfl hne
  | cons m rest => exact hall m (by simp)

theorem specMergeList_keys (l : List DescriptorBindingInfo) :
    (specMergeList l).map bindingKeyOf = dedupFirst (l.map bindingKeyOf) := by
  unfold specMergeList
  rw [List.map_map]
  apply mapNoop
  intro k hk
  have hkl : k ∈ l.map bindingKeyOf := (mem_dedupFirst _ k).mp hk
  obtain ⟨b, hb, hbk⟩ := List.mem_map.mp hkl
  apply specMergeEntry_key_of
  · intro hnil
    have : b ∈ l.filter (fun b2 => decide (bindingKeyOf b2 = k)) := by
      rw [List.mem_filter]
      exact ⟨hb, by simp [hbk]⟩
    rw [hnil] at this
    cases this
  · intro m hm
    have := List.of_mem_filter hm
    simpa using this

theorem specMergeList_single (b : DescriptorBindingInfo) :
    specMergeList [b] = [b] := by
  unfold specMergeList dedupFirst
  simp [specMergeEntry, dedupFirst]

theorem specMergeEntry_snoc (ms : List DescriptorBindingInfo)
    (b : DescriptorBindingInfo) (hne : ms ≠ []) :
    specMergeEntry (ms ++ [b]) =
      { specMergeEntry ms with
        stageFlags := (specMergeEntry ms).stageFlags ||| b.stageFlags } := by
  cases ms with
  | nil => exact absurd rfl hne
  | cons m rest => simp [specMergeEntry, List.foldl_append]

theorem specMergeList_snoc_not_mem (l : List DescriptorBindingInfo)
    (b : DescriptorBindingInfo)
    (h : bindingKeyOf b ∉ l.map bindingKeyOf) :
    specMergeList (l ++ [b]) = specMergeList l ++ [b] := by
  unfold specMergeList
  rw [List.map_append, List.map_cons, List.map_nil, dedupFirst_snoc,
    if_neg h, List.map_append]
  congr 1
  · apply List.map_congr_left
    intro k hk
    have hkl : k ∈ l.map bindingKeyOf := (mem_dedupFirst _ k).mp hk
    have hkb : ¬bindingKeyOf b = k := fun he => h (he ▸ hkl)
    rw [List.filter_append]
    have : List.filter (fun b2 => decide (bindingKeyOf b2 = k)) [b] = [] := by
      simp [hkb]
    rw [this, List.append_nil]
  · rw [List.map_cons, List.map_nil]
    congr 1
    rw [List.filter_append]
    have h1 : List.filter (fun b2 => decide (bindingKeyOf b2 = bindingKeyOf b)) l = [] := by
      rw [List.filter_eq_nil_iff]
      intro x hx
      simp only [decide_eq_true_eq]
      intro he
      exact h (he ▸ List.mem_map_of_mem _ hx)
    have h2 : List.filter (fun b2 => decide (bindingKeyOf b2 = bindingKeyOf b)) [b] = [b] := by
      simp
    rw [h1, h2, List.nil_append]
    rfl

theorem specMergeList_snoc_mem (l : List DescriptorBindingInfo)
    (b : DescriptorBindingInfo)
    (h : bindingKeyOf b ∈ l.map bindingKeyOf) :
    specMergeList (l ++ [b]) = (specMergeList l).map (fun e =>
      if bindingKeyOf e = bindingKeyOf b then
        { e with stageFlags := e.stageFlags ||| b.stageFlags }
      else e) := by
  unfold specMergeList
  rw [List.map_append, List.map_cons, List.map_nil, dedupFirst_snoc,
    if_pos h, List.map_map]
  apply List.map_congr_left
  intro k hk
  have hkl : k ∈ l.map bindingKeyOf := (mem_dedupFirst _ k).mp hk
  simp only [Function.comp]
  by_cases hkb : k = bindingKeyOf b
  · subst hkb
    rw [List.filter_append]
    have h2 : List.filter (fun b2 => decide (bindingKeyOf b2 = bindingKeyOf b)) [b] = [b] := by
      simp
    rw [h2]
    have hne : l.filter (fun b2 => decide (bindingKeyOf b2 = bindingKeyOf b)) ≠ [] := by
      obtain ⟨x, hx, hxk⟩ := List.mem_map.mp hkl
      intro hnil
      have : x ∈ l.filter (fun b2 => decide (bindingKeyOf b2 = bindingKeyOf b)) := by
        rw [List.mem_filter]
        exact ⟨hx, by simp [hxk]⟩
      rw [hnil] at this
      cases this
    rw [specMergeEntry_snoc _ _ hne]
    have hkey : bindingKeyOf (specMergeEntry
        (l.filter (fun b2 => decide (bindingKeyOf b2 = bindingKeyOf b)))) =
        bindingKeyOf b := by
      apply specMergeEntry_key_of _ _ hne
      intro m hm
      simpa using List.of_mem_filter hm
    rw [if_pos hkey]
  · have hkb2 : ¬bindingKeyOf b = k := fun he => hkb he.symm
    rw [List.filter_append]
    have h2 : List.filter (fun b2 => decide (bindingKeyOf b2 = k)) [b] = [] := by
      simp [hkb2]
    rw [h2, List.append_nil]
    have hne : l.filter (fun b2 => decide (bindingKeyOf b2 = k)) ≠ [] := by
      obtain ⟨x, hx, hxk⟩ := List.mem_map.mp hkl
      intro hnil
      have : x ∈ l.filter (fun b2 => decide (bindingKeyOf b2 = k)) := by
        rw [List.mem_filter]
        exact ⟨hx, by simp [hxk]⟩
      rw [hnil] at this
      cases this
    have hkey : bindingKeyOf (specMergeEntry
        (l.filter (fun b2 => decide (bindingKeyOf b2 = k)))) = k := by
      apply specMergeEntry_key_of _ _ hne
      intro m hm
      simpa using List.of_mem_filter hm
    rw [if_neg (by rw [hkey]; exact hkb)]

theorem specMergeList_count (l : List DescriptorBindingInfo)
    (y : DescriptorBindingInfo) (hy : y ∈ specMergeList l) :
    ∃ x ∈ l, bindingKeyOf x = bindingKeyOf y ∧
      x.descriptorCount = y.descriptorCount := by
  unfold specMergeList at hy
  obtain ⟨k, hk, hky⟩ := List.mem_map.mp hy
  have hkl : k ∈ l.map bindingKeyOf := (mem_dedupFirst _ k).mp hk
  obtain ⟨b, hb, hbk⟩ := List.mem_map.mp hkl
  have hbmem : b ∈ l.filter (fun b2 => decide (bindingKeyOf b2 = k)) := by
    rw [List.mem_filter]
    exact ⟨hb, by simp [hbk]⟩
  obtain ⟨m, rest, hcons⟩ : ∃ m rest,
      l.filter (fun b2 => decide (bindingKeyOf b2 = k)) = m :: rest := by
    cases hfil : l.filter (fun b2 => decide (bindingKeyOf b2 = k)) with
    | nil =>
        rw [hfil] at hbmem
        cases hbmem
    | cons m rest => exact ⟨m, rest, rfl⟩
  refine ⟨m, ?_, ?_, ?_⟩
  · exact List.mem_of_mem_filter (hcons ▸ List.mem_cons_self m rest)
  · rw [← hky, hcons]
    rfl
  · rw [← hky, hcons]
    rfl

theorem entriesFor_append (flat : List (Nat × DescriptorBindingInfo))
    (q : Nat × DescriptorBindingInfo) (s : Nat) :
    entriesFor (flat ++ [q]) s =
      entriesFor flat s ++ (if q.1 = s then [q.2] else []) := by
  unfold entriesFor
  rw [List.filter_append, List.map_append]
  congr 1
  by_cases hq : q.1 = s
  · simp [hq]
  · simp [hq]

theorem entriesFor_nil_of_not_mem (flat : List (Nat × DescriptorBindingInfo))
    (s : Nat) (h : s ∉ flat.map Prod.fst) : entriesFor flat s = [] := by
  unfold entriesFor
  have : flat.filter (fun p => decide (p.1 = s)) = [] := by
    rw [List.filter_eq_nil_iff]
    intro p hp
    simp only [decide_eq_true_eq]
    intro he
    exact h (he ▸ List.mem_map_of_mem _ hp)
  rw [this, List.map_nil]

theorem entriesFor_ne_nil_of_mem (flat : List (Nat × DescriptorBindingInfo))
    (s : Nat) (h : s ∈ flat.map Prod.fst) : entriesFor flat s ≠ [] := by
  obtain ⟨p, hp, hps⟩ := List.mem_map.mp h
  unfold entriesFor
  intro hnil
  have hmem : p ∈ flat.filter (fun p2 => decide (p2.1 = s)) := by
    rw [List.mem_filter]
    exact ⟨hp, by simp [hps]⟩
  have := List.mem_map_of_mem Prod.snd hmem
  rw [hnil] at this
  cases this

theorem countConsistent_prefix (l1 l2 : List DescriptorBindingInfo)
    (h : countConsistent (l1 ++ l2)) : countConsistent l1 := by
  intro b1 hb1 b2 hb2 hk
  exact h b1 (List.mem_append_left _ hb1) b2 (List.mem_append_left _ hb2) hk

theorem specSets_keys (flat : List (Nat × DescriptorBindingInfo)) :
    (specSets flat).map Prod.fst = dedupFirst (flat.map Prod.fst) := by
  unfold specSets
  rw [List.map_map]
  exact mapNoop (fun s _ => rfl)

theorem mergeStepSet_not_mem (acc : List (Nat × List DescriptorBindingInfo))
    (si : Nat) (b : DescriptorBindingInfo) (h : si ∉ acc.map Prod.fst) :
    mergeStepSet acc si b = Except.ok (acc ++ [(si, [b])]) := by
  induction acc with
  | nil => rfl
  | cons p rest ih =>
      obtain ⟨s0, v⟩ := p
      rw [List.map_cons, List.mem_cons] at h
      push_neg at h
      rw [mergeStepSet, if_neg (fun he => h.1 he.symm), ih h.2]
      rfl

theorem mergeStepSet_mem (acc : List (Nat × List DescriptorBindingInfo))
    (si : Nat) (b : DescriptorBindingInfo) (v : List DescriptorBindingInfo)
    (hnd : (acc.map Prod.fst).Nodup) (hv : (si, v) ∈ acc) :
    mergeStepSet acc si b = (mergeBinding v b).map (fun v2 =>
      acc.map (fun p => if p.1 = si then (si, v2) else p)) := by
  induction acc with
  | nil => cases hv
  | cons p rest ih =>
      obtain ⟨s0, w⟩ := p
      rw [List.map_cons, List.nodup_cons] at hnd
      rw [mergeStepSet]
      rcases List.mem_cons.mp hv with heq | hv2
      · obtain ⟨rfl, rfl⟩ := Prod.mk.injEq .. ▸ heq.symm
        rw [if_pos rfl]
        have hrest : ∀ p2 ∈ rest, ¬(p2.1 = s0) := by
          intro p2 hp2 he
          apply hnd.1
          rw [← he]
          exact List.mem_map.mpr ⟨p2, hp2, rfl⟩
        cases hmb : mergeBinding w b with
        | error e => rfl
        | ok v2 =>
            simp only [Except.map]
            congr 1
            rw [List.map_cons, if_pos rfl]
            congr 1
            exact (mapNoop (fun p2 hp2 => if_neg (hrest p2 hp2))).symm
      · have hs0 : ¬s0 = si := by
          intro he
          apply hnd.1
          rw [he]
          exact List.mem_map.mpr ⟨(si, v), hv2, rfl⟩
        rw [if_neg hs0, ih hnd.2 hv2]
        cases hmb : mergeBinding v b with
        | error e => rfl
        | ok v2 =>
            simp only [Except.map, List.map_cons, if_neg hs0]

theorem mem_specSets (flat : List (Nat × DescriptorBindingInfo)) (s : Nat)
    (h : s ∈ flat.map Prod.fst) :
    (s, specMergeList (entriesFor flat s)) ∈ specSets flat := by
  unfold specSets
  exact List.mem_map_of_mem _ ((mem_dedupFirst _ s).mpr h)

theorem specSets_snoc_not_mem (flat : List (Nat × DescriptorBindingInfo))
    (q : Nat × DescriptorBindingInfo) (hmem : q.1 ∉ flat.map Prod.fst) :
    specSets (flat ++ [q]) = specSets flat ++ [(q.1, [q.2])] := by
  unfold specSets
  rw [List.map_append, List.map_cons, List.map_nil, dedupFirst_snoc,
    if_neg hmem, List.map_append]
  congr 1
  · apply List.map_congr_left
    intro s hs
    have hsl : s ∈ flat.map Prod.fst := (mem_dedupFirst _ s).mp hs
    have hsne : ¬q.1 = s := fun he => hmem (he ▸ hsl)
    rw [entriesFor_append, if_neg hsne, List.append_nil]
  · rw [List.map_cons, List.map_nil]
    rw [entriesFor_append, if_pos rfl,
      entriesFor_nil_of_not_mem flat q.1 hmem, List.nil_append,
      specMergeList_single]

theorem specSets_snoc_mem (flat : List (Nat × DescriptorBindingInfo))
    (q : Nat × DescriptorBindingInfo) (hmem : q.1 ∈ flat.map Prod.fst) :
    specSets (flat ++ [q]) = (specSets flat).map (fun p =>
      if p.1 = q.1 then
        (q.1, specMergeList (entriesFor flat q.1 ++ [q.2]))
      else p) := by
  unfold specSets
  rw [List.map_append, List.map_cons, List.map_nil, dedupFirst_snoc,
    if_pos hmem, List.map_map]
  apply List.map_congr_left
  intro s hs
  simp only [Function.comp]
  by_cases hsq : s = q.1
  · subst hsq
    rw [if_pos rfl, entriesFor_append, if_pos rfl]
  · rw [if_neg hsq, entriesFor_append, if_neg (fun he => hsq he.symm),
      List.append_nil]

theorem mergeStep_spec (flat : List (Nat × DescriptorBindingInfo))
    (q : Nat × DescriptorBindingInfo)
    (hcons : countConsistent (entriesFor (flat ++ [q]) q.1)) :
    mergeStepSet (specSets flat) q.1 q.2 = Except.ok (specSets (flat ++ [q])) := by
  by_cases hmem : q.1 ∈ flat.map Prod.fst
  · have hnd : ((specSets flat).map Prod.fst).Nodup := by
      rw [specSets_keys]
      exact nodup_dedupFirst _
    have hv : (q.1, specMergeList (entriesFor flat q.1)) ∈ specSets flat :=
      mem_specSets flat q.1 hmem
    rw [mergeStepSet_mem (specSets flat) q.1 q.2
      (specMergeList (entriesFor flat q.1)) hnd hv]
    have hvnd : ((specMergeList (entriesFor flat q.1)).map bindingKeyOf).Nodup := by
      rw [specMergeList_keys]
      exact nodup_dedupFirst _
    by_cases hkb : bindingKeyOf q.2 ∈ (entriesFor flat q.1).map bindingKeyOf
    · have hkbv : bindingKeyOf q.2 ∈
          (specMergeList (entriesFor flat q.1)).map bindingKeyOf := by
        rw [specMergeList_keys]
        exact (mem_dedupFirst _ _).mpr hkb
      obtain ⟨y, hy, hyk⟩ := List.mem_map.mp hkbv
      obtain ⟨x0, hx0, hx0k, hx0c⟩ := specMergeList_count _ y hy
      have hentq : entriesFor (flat ++ [q]) q.1 =
          entriesFor flat q.1 ++ [q.2] := by
        rw [entriesFor_append, if_pos rfl]
      have hyc : y.descriptorCount = q.2.descriptorCount := by
        rw [← hx0c]
        apply hcons x0 _ q.2 _
        · rw [hx0k, hyk]
        · rw [hentq]
          exact List.mem_append_left _ hx0
        · rw [hentq]
          exact List.mem_append_right _ (by simp)
      rw [mergeBinding_mem (specMergeList (entriesFor flat q.1)) q.2 y hvnd hy hyk]
      rw [if_neg (by simp [hyc])]
      rw [← specMergeList_snoc_mem _ _ hkb]
      simp only [Except.map]
      rw [specSets_snoc_mem flat q hmem]
    · have hkbv : bindingKeyOf q.2 ∉
          (specMergeList (entriesFor flat q.1)).map bindingKeyOf := by
        rw [specMergeList_keys]
        exact fun hin => hkb ((mem_dedupFirst _ _).mp hin)
      rw [mergeBinding_not_mem _ _ hkbv]
      rw [← specMergeList_snoc_not_mem _ _ hkb]
      simp only [Except.map]
      rw [specSets_snoc_mem flat q hmem]
  · have hnk : q.1 ∉ (specSets flat).map Prod.fst := by
      rw [specSets_keys]
      exact fun hin => hmem ((mem_dedupFirst _ _).mp hin)
    rw [mergeStepSet_not_mem _ _ _ hnk, specSets_snoc_not_mem flat q hmem]

theorem mergeStep_conflict (flat : List (Nat × DescriptorBindingInfo))
    (q : Nat × DescriptorBindingInfo) (x : DescriptorBindingInfo)
    (hx : x ∈ entriesFor flat q.1)
    (hkey : bindingKeyOf x = bindingKeyOf q.2)
    (hcnt : x.descriptorCount ≠ q.2.descriptorCount)
    (hconsl : countConsistent (entriesFor flat q.1)) :
    mergeStepSet (specSets flat) q.1 q.2 =
      Except.error Err.descriptorCountMismatch := by
  have hmem : q.1 ∈ flat.map Prod.fst := by
    by_contra hmem
    rw [entriesFor_nil_of_not_mem flat q.1 hmem] at hx
    cases hx
  have hnd : ((specSets flat).map Prod.fst).Nodup := by
    rw [specSets_keys]
    exact nodup_dedupFirst _
  have hv : (q.1, specMergeList (entriesFor flat q.1)) ∈ specSets flat :=
    mem_specSets flat q.1 hmem
  rw [mergeStepSet_mem (specSets flat) q.1 q.2
    (specMergeList (entriesFor flat q.1)) hnd hv]
  have hvnd : ((specMergeList (entriesFor flat q.1)).map bindingKeyOf).Nodup := by
    rw [specMergeList_keys]
    exact nodup_dedupFirst _
  have hkbv : bindingKeyOf q.2 ∈
      (specMergeList (entriesFor flat q.1)).map bindingKeyOf := by
    rw [specMergeList_keys]
    refine (mem_dedupFirst _ _).mpr ?_
    rw [← hkey]
    exact List.mem_map_of_mem _ hx
  obtain ⟨y, hy, hyk⟩ := List.mem_map.mp hkbv
  obtain ⟨x0, hx0, hx0k, hx0c⟩ := specMergeList_count _ y hy
  have hyc : y.descriptorCount = x.descriptorCount := by
    rw [← hx0c]
    apply hconsl x0 hx0 x hx
    rw [hx0k, hyk, hkey]
  rw [mergeBinding_mem (specMergeList (entriesFor flat q.1)) q.2 y hvnd hy hyk]
  rw [if_pos (by rw [hyc]; exact hcnt)]
  rfl

theorem mergeRun_ok (flat : List (Nat × DescriptorBindingInfo))
    (hcons : ∀ s, countConsistent (entriesFor flat s)) :
    flat.foldlM (fun acc p => mergeStepSet acc p.1 p.2) [] =
      Except.ok (specSets flat) := by
  induction flat using List.reverseRecOn with
  | nil =>
      show Except.ok [] = _
      simp [specSets, dedupFirst]
  | append_singleton l q ih =>
      have hl : ∀ s, countConsistent (entriesFor l s) := by
        intro s
        have hs := hcons s
        rw [entriesFor_append] at hs
        exact countConsistent_prefix _ _ hs
      rw [List.foldlM_append, ih hl]
      show mergeStepSet (specSets l) q.1 q.2 >>= _ = _
      rw [mergeStep_spec l q (hcons q.1)]
      rfl

theorem mergeRun_conflict (flat : List (Nat × DescriptorBindingInfo))
    (hbad : ¬∀ s, countConsistent (entriesFor flat s)) :
    flat.foldlM (fun acc p => mergeStepSet acc p.1 p.2) [] =
      Except.error Err.descriptorCountMismatch := by
  induction flat using List.reverseRecOn with
  | nil =>
      exact absurd (fun s b1 hb1 => by
        rw [entriesFor_nil_of_not_mem [] s (by simp)] at hb1
        cases hb1) hbad
  | append_singleton l q ih =>
      rw [List.foldlM_append]
      by_cases hl : ∀ s, countConsistent (entriesFor l s)
      · rw [mergeRun_ok l hl]
        show mergeStepSet (specSets l) q.1 q.2 >>= _ = _
        push_neg at hbad
        obtain ⟨s, hs⟩ := hbad
        unfold countConsistent at hs
        push_neg at hs
        obtain ⟨b1, hb1, b2, hb2, hk, hc⟩ := hs
        rw [entriesFor_append] at hb1 hb2
        have hsq : q.1 = s := by
          by_contra hne
          rw [if_neg hne, List.append_nil] at hb1 hb2
          exact hc (hl s b1 hb1 b2 hb2 hk)
        subst hsq
        rw [if_pos rfl] at hb1 hb2
        have hconf : ∃ x ∈ entriesFor l q.1,
            bindingKeyOf x = bindingKeyOf q.2 ∧
            x.descriptorCount ≠ q.2.descriptorCount := by
          rcases List.mem_append.mp hb1 with h1 | h1
          · rcases List.mem_append.mp hb2 with h2 | h2
            · exact absurd (hl q.1 b1 h1 b2 h2 hk) hc
            · have hb2q : b2 = q.2 := by simpa using h2
              subst hb2q
              exact ⟨b1, h1, hk, hc⟩
          · have hb1q : b1 = q.2 := by simpa using h1
            subst hb1q
            rcases List.mem_append.mp hb2 with h2 | h2
            · exact ⟨b2, h2, hk.symm, fun he => hc he.symm⟩
            · have hb2q : b2 = q.2 := by simpa using h2
              subst hb2q
              exact absurd rfl hc
        obtain ⟨x, hx, hxk, hxc⟩ := hconf
        rw [mergeStep_conflict l q x hx hxk hxc (hl q.1)]
        rfl
      · rw [ih hl]
        rfl

theorem mem_insertByBinding (b : DescriptorBindingInfo)
    (l : List DescriptorBindingInfo) (z : DescriptorBindingInfo) :
    z ∈ insertByBinding b l ↔ z = b ∨ z ∈ l := by
  induction l with
  | nil => simp [insertByBinding]
  | cons x xs ih =>
      rw [insertByBinding]
      by_cases hbx : b.binding < x.binding
      · simp [hbx]
      · rw [if_neg hbx]
        rw [List.mem_cons, ih, List.mem_cons]
        tauto

theorem insertByBinding_sorted (b : DescriptorBindingInfo)
    (l : List DescriptorBindingInfo) (h : sortedByBinding l) :
    sortedByBinding (insertByBinding b l) := by
  induction l with
  | nil =>
      unfold sortedByBinding insertByBinding
      simp
  | cons x xs ih =>
      rw [sortedByBinding, List.pairwise_cons] at h
      rw [insertByBinding]
      by_cases hbx : b.binding < x.binding
      · rw [if_pos hbx]
        unfold sortedByBinding
        rw [List.pairwise_cons]
        constructor
        · intro z hz
          rcases List.mem_cons.mp hz with rfl | hz2
          · exact Nat.le_of_lt hbx
          · exact Nat.le_trans (Nat.le_of_lt hbx) (h.1 z hz2)
        · rw [List.pairwise_cons]
          exact h
      · rw [if_neg hbx]
        unfold sortedByBinding
        rw [List.pairwise_cons]
        constructor
        · intro z hz
          rcases (mem_insertByBinding b xs z).mp hz with rfl | hz2
          · omega
          · exact h.1 z hz2
        · exact ih h.2

theorem sortByBinding_sorted (l : List DescriptorBindingInfo) :
    sortedByBinding (sortByBinding l) := by
  induction l with
  | nil =>
      unfold sortedByBinding sortByBinding
      simp
  | cons x xs ih => exact insertByBinding_sorted x (sortByBinding xs) ih

theorem assocFind_map_snd {κ ν ν2 : Type} [DecidableEq κ] (f : ν → ν2)
    (l : List (κ × ν)) (k : κ) :
    assocFind (l.map (fun p => (p.1, f p.2))) k = (assocFind l k).map f := by
  induction l with
  | nil => rfl
  | cons p rest ih =>
      rw [List.map_cons, assocFind_cons, assocFind_cons]
      by_cases hp : p.1 = k
      · rw [if_pos hp, if_pos hp]
        rfl
      · rw [if_neg hp, if_neg hp, ih]

theorem assocFind_keyfun {ν : Type} (ks : List Nat) (g : Nat → ν) (s : Nat) :
    assocFind (ks.map (fun k => (k, g k))) s =
      if s ∈ ks then some (g s) else none := by
  induction ks with
  | nil => simp
  | cons k rest ih =>
      rw [List.map_cons, assocFind_cons, ih]
      by_cases hk : k = s
      · subst hk
        rw [if_pos rfl, if_pos (by simp)]
      · rw [if_neg hk]
        by_cases hmem : s ∈ rest
        · rw [if_pos hmem, if_pos (by simp [hmem])]
        · rw [if_neg hmem, if_neg (by
            simp only [List.mem_cons, not_or]
            exact ⟨fun h => hk h.symm, hmem⟩)]

/-- C3: the multi-stage reflection merger matches bindings within a set
by `(binding, descriptorType)`.  (1) It succeeds iff, within every set,
all bindings sharing a key agree on `descriptorCount` — a mismatch
between stages raises the descriptor-count-mismatch error.  (2) On
success each set's result is exactly the groups of the set's bindings
in first-occurrence order — each group contributing one entry equal to
its first-seen binding (name and count) with all the group's stage
flags or-combined, unmatched bindings appearing unchanged — finally
sorted by binding index ascending.  (3) On a mismatch the
reflect-and-register pipeline fails before any layout is registered
(no cache state is produced). -/
theorem mergeReflectionResults_spec
    (pm : List (List (Nat × List DescriptorBindingInfo))) :
    ((∃ out, mergeReflectionResults pm = Except.ok out) ↔
      ∀ s, countConsistent (entriesFor (flattenReflection pm) s)) ∧
    (∀ out, mergeReflectionResults pm = Except.ok out →
      ∀ s v, assocFind out s = some v →
        v = sortByBinding (specMergeList (entriesFor (flattenReflection pm) s)) ∧
        sortedByBinding v) ∧
    (∀ cache shaderPfx,
      ¬(∀ s, countConsistent (entriesFor (flattenReflection pm) s)) →
      reflectAndRegister cache pm shaderPfx =
        Except.error Err.descriptorCountMismatch) := by
  refine ⟨⟨?_, ?_⟩, ?_, ?_⟩
  · rintro ⟨out, hout⟩
    by_contra hbad
    unfold mergeReflectionResults at hout
    rw [mergeRun_conflict _ hbad] at hout
    exact Except.noConfusion hout
  · intro hcons
    refine ⟨(specSets (flattenReflection pm)).map
      (fun p => (p.1, sortByBinding p.2)), ?_⟩
    unfold mergeReflectionResults
    rw [mergeRun_ok _ hcons]
    rfl
  · intro out hout s v hv
    have hcons : ∀ s2, countConsistent (entriesFor (flattenReflection pm) s2) := by
      by_contra hbad
      unfold mergeReflectionResults at hout
      rw [mergeRun_conflict _ hbad] at hout
      exact Except.noConfusion hout
    have hout2 : out = (specSets (flattenReflection pm)).map
        (fun p => (p.1, sortByBinding p.2)) := by
      unfold mergeReflectionResults at hout
      rw [mergeRun_ok _ hcons] at hout
      exact (Except.ok.inj hout).symm
    subst hout2
    rw [assocFind_map_snd] at hv
    have hss : specSets (flattenReflection pm) =
        (dedupFirst ((flattenReflection pm).map Prod.fst)).map
          (fun s2 => (s2, specMergeList (entriesFor (flattenReflection pm) s2))) := rfl
    rw [hss, assocFind_keyfun] at hv
    by_cases hmem : s ∈ dedupFirst ((flattenReflection pm).map Prod.fst)
    · rw [if_pos hmem] at hv
      have hveq := Option.some.inj hv
      refine ⟨hveq.symm, ?_⟩
      rw [← hveq]
      exact sortByBinding_sorted _
    · rw [if_neg hmem] at hv
      exact Option.noConfusion hv
  · intro cache shaderPfx hbad
    unfold reflectAndRegister mergeReflectionResults
    rw [mergeRun_conflict _ hbad]
    rfl

/-- C3 (witness): on `wPm` the merged set 0 is the or-combined
first-seen pair, sorted; on `wPmBad` the pipeline fails with the
descriptor-count mismatch and registers nothing. -/
theorem mergeReflectionResults_spec_witness :
    ([⟨"uCam", 0, 6, 1, 17⟩, ⟨"uTex", 1, 1, 4, 16⟩] : List DescriptorBindingInfo) =
      sortByBinding (specMergeList (entriesFor (flattenReflection wPm) 0)) ∧
    sortedByBinding
      [⟨"uCam", 0, 6, 1, 17⟩, ⟨"uTex", 1, 1, 4, 16⟩] ∧
    reflectAndRegister emptyLayoutCache wPmBad "bad" =
      Except.error Err.descriptorCountMismatch :=
  ⟨((mergeReflectionResults_spec wPm).2.1
      [(0, [⟨"uCam", 0, 6, 1, 17⟩, ⟨"uTex", 1, 1, 4, 16⟩])] (by rfl)
      0 [⟨"uCam", 0, 6, 1, 17⟩, ⟨"uTex", 1, 1, 4, 16⟩] (by rfl)).1,
   ((mergeReflectionResults_spec wPm).2.1
      [(0, [⟨"uCam", 0, 6, 1, 17⟩, ⟨"uTex", 1, 1, 4, 16⟩])] (by rfl)
      0 [⟨"uCam", 0, 6, 1, 17⟩, ⟨"uTex", 1, 1, 4, 16⟩] (by rfl)).2,
   (mergeReflectionResults_spec wPmBad).2.2 emptyLayoutCache "bad" (by
      intro hall
      exact absurd
        (hall 0 ⟨"u", 1, 6, 1, 1⟩ (by decide) ⟨"u", 1, 6, 2, 16⟩ (by decide)
          (by decide))
        (by decide))⟩

end RenderV2
